import Mathlib

/-!
Verification development for the embedded terminal-emulator core of the
repository (src/qt_terminal.py and src/managed_terminal.py).

The Python classes are shallowly embedded: `ScreenBuffer` and `AnsiParser`
become Lean structures, mutating methods become functions returning a new
state.  Every Python list index that can raise `IndexError` is modelled by
an `Option`-returning access, so a method that can raise returns
`Option ScreenBuffer` and `none` stands for "raises".  Python integers are
modelled by `Nat` where the source value is provably non-negative and by
`Int` where intermediate values can be negative (cursor-motion arithmetic).
`QtGui.QColor` is modelled by an RGB triple of `Nat`.
-/

/-- RGB triple standing in for QtGui.QColor. -/
@[ext]
structure Color where
  r : Nat
  g : Nat
  b : Nat
deriving DecidableEq, Repr

/-- One character cell (dataclass Cell in qt_terminal.py). -/
@[ext]
structure Cell where
  ch : Char := ' '
  fg : Option Color := none
  bg : Option Color := none
  bold : Bool := false
  italic : Bool := false
  underline : Bool := false
  inverse : Bool := false
deriving DecidableEq, Repr

/-- Cell() with all defaults. -/
def Cell.blank : Cell := {}

/-- clamp(v, lo, hi) from qt_terminal.py; Python ints are modelled by Int. -/
def clamp (v lo hi : Int) : Int := max lo (min hi v)

/-- clamp an index into [0, n-1] and read the (non-negative) result back as
a Nat; every cursor clamp in the source has this shape. -/
def clampIdx (v : Int) (n : Nat) : Nat := (clamp v 0 ((n : Int) - 1)).toNat

/-- A row of blank cells, [Cell() for _ in range(cols)]. -/
def blankRow (cols : Nat) : List Cell := List.replicate cols Cell.blank

/-- State of class ScreenBuffer.  The unused field origin_mode is omitted
(it is written once in reset() and never read). -/
@[ext]
structure ScreenBuffer where
  rows : Nat
  cols : Nat
  scrollback_limit : Nat
  cursor_row : Nat
  cursor_col : Nat
  saved_cursor : Nat × Nat
  primary : List (List Cell)
  scrollback : List (List Cell)
deriving DecidableEq, Repr

/-- ScreenBuffer.reset. -/
def ScreenBuffer.reset (s : ScreenBuffer) : ScreenBuffer :=
  { s with cursor_row := 0, cursor_col := 0, saved_cursor := (0, 0),
           primary := List.replicate s.rows (blankRow s.cols),
           scrollback := [] }

/-- ScreenBuffer.__init__(rows, cols, scrollback): store the three sizes and
call reset(). -/
def ScreenBuffer.init (rows cols scrollback : Nat) : ScreenBuffer :=
  ScreenBuffer.reset
    { rows := rows, cols := cols, scrollback_limit := scrollback,
      cursor_row := 0, cursor_col := 0, saved_cursor := (0, 0),
      primary := [], scrollback := [] }

/-- The scrollback.append + popleft-when-over-limit pattern used by both
scroll_up and resize. -/
def pushSB (limit : Nat) (sb : List (List Cell)) (row : List Cell) :
    List (List Cell) :=
  let sb2 := sb ++ [row]
  if limit < sb2.length then sb2.tail else sb2

/-- One iteration of the shrink loop inside ScreenBuffer.resize: if the
primary grid is non-empty, pop its top row and (when the limit is positive)
archive it into scrollback. -/
def ScreenBuffer.resizeShrinkStep (s : ScreenBuffer) : ScreenBuffer :=
  match s.primary with
  | [] => s
  | top :: rest =>
      if 0 < s.scrollback_limit then
        { s with primary := rest,
                 scrollback := pushSB s.scrollback_limit s.scrollback top }
      else
        { s with primary := rest }

/-- The whole shrink loop of ScreenBuffer.resize, run n times. -/
def ScreenBuffer.resizeShrink (s : ScreenBuffer) : Nat → ScreenBuffer
  | 0 => s
  | n + 1 => s.resizeShrinkStep.resizeShrink n

/-- ScreenBuffer.resize(rows, cols). -/
def ScreenBuffer.resize (s : ScreenBuffer) (rows cols : Nat) : ScreenBuffer :=
  let s1 :=
    if rows < s.rows then s.resizeShrink (s.rows - rows)
    else if s.rows < rows then
      { s with primary :=
          s.primary ++ List.replicate (rows - s.rows) (blankRow s.cols) }
    else s
  let s2 :=
    if cols ≠ s1.cols then
      { s1 with primary := s1.primary.map (fun row =>
          if s1.cols < cols then
            row ++ List.replicate (cols - s1.cols) Cell.blank
          else row.take cols) }
    else s1
  { s2 with rows := rows, cols := cols,
            cursor_row := clampIdx (s2.cursor_row : Int) rows,
            cursor_col := clampIdx (s2.cursor_col : Int) cols }

/-- self.primary[r][c] = cell: none models the IndexError when either index
is out of the actual list bounds. -/
def setCell? (g : List (List Cell)) (r c : Nat) (cell : Cell) :
    Option (List (List Cell)) :=
  match g.get? r with
  | none => none
  | some row =>
      if c < row.length then some (g.set r (row.set c cell)) else none

/-- self.primary[r] = row. -/
def setRow? (g : List (List Cell)) (r : Nat) (row : List Cell) :
    Option (List (List Cell)) :=
  if r < g.length then some (g.set r row) else none

/-- for c in range(a, b): row[c] = Cell(). -/
def blankRange? (row : List Cell) (a b : Nat) : Option (List Cell) :=
  (List.range' a (b - a)).foldlM
    (fun r c => if c < r.length then some (r.set c Cell.blank) else none) row

/-- One iteration of the loop inside ScreenBuffer.scroll_up.  In the source
the body reads self.primary[0] (when the limit is positive) and pops it, so
an empty primary grid raises: that is the none case. -/
def ScreenBuffer.scrollUpStep (s : ScreenBuffer) : Option ScreenBuffer :=
  match s.primary with
  | [] => none
  | top :: rest =>
      let s1 :=
        if 0 < s.scrollback_limit then
          { s with scrollback := pushSB s.scrollback_limit s.scrollback top }
        else s
      some { s1 with primary := rest ++ [blankRow s1.cols] }

/-- ScreenBuffer.scroll_up(n): the loop body, n times. -/
def ScreenBuffer.scroll_up (s : ScreenBuffer) : Nat → Option ScreenBuffer
  | 0 => some s
  | n + 1 => do ((← s.scrollUpStep).scroll_up n)

/-- ScreenBuffer.newline. -/
def ScreenBuffer.newline (s : ScreenBuffer) : Option ScreenBuffer :=
  let s1 := { s with cursor_col := 0, cursor_row := s.cursor_row + 1 }
  if s1.rows ≤ s1.cursor_row then do
    let s2 ← s1.scroll_up 1
    pure { s2 with cursor_row := s2.rows - 1 }
  else pure s1

/-- ScreenBuffer._write_char: deferred wrap, then a bounds-guarded store. -/
def ScreenBuffer._write_char (s : ScreenBuffer) (cell : Cell) :
    Option ScreenBuffer :=
  match (if s.cols ≤ s.cursor_col then s.newline else some s) with
  | none => none
  | some s1 =>
      if s1.cursor_row < s1.rows ∧ s1.cursor_col < s1.cols then
        match setCell? s1.primary s1.cursor_row s1.cursor_col cell with
        | none => none
        | some g =>
            some { s1 with primary := g, cursor_col := s1.cursor_col + 1 }
      else some s1

/-- n successive _write_char calls with the same cell (the tab loop). -/
def ScreenBuffer.writeCharN (s : ScreenBuffer) (cell : Cell) :
    Nat → Option ScreenBuffer
  | 0 => some s
  | n + 1 => do ((← s._write_char cell).writeCharN cell n)

/-- ScreenBuffer.put_char.  Backspace is max(0, cursor_col - 1), which is
Nat subtraction. -/
def ScreenBuffer.put_char (s : ScreenBuffer) (cell : Cell) :
    Option ScreenBuffer :=
  if cell.ch = '\n' then s.newline
  else if cell.ch = '\r' then some { s with cursor_col := 0 }
  else if cell.ch = '\x08' then some { s with cursor_col := s.cursor_col - 1 }
  else if cell.ch = '\t' then
    s.writeCharN { cell with ch := ' ' } (8 - s.cursor_col % 8)
  else s._write_char cell

/-- ScreenBuffer.erase_in_display(mode). -/
def ScreenBuffer.erase_in_display (s : ScreenBuffer) (mode : Nat) :
    Option ScreenBuffer :=
  if mode = 2 then
    some { s with primary := List.replicate s.rows (blankRow s.cols),
                  cursor_row := clampIdx (s.cursor_row : Int) s.rows,
                  cursor_col := clampIdx (s.cursor_col : Int) s.cols }
  else if mode = 0 then
    (s.primary.get? s.cursor_row).bind fun row =>
    (blankRange? row s.cursor_col s.cols).bind fun row2 =>
    (setRow? s.primary s.cursor_row row2).bind fun g =>
    ((List.range' (s.cursor_row + 1) (s.rows - (s.cursor_row + 1))).foldlM
        (fun g r => setRow? g r (blankRow s.cols)) g).bind fun g2 =>
    some { s with primary := g2 }
  else if mode = 1 then
    ((List.range' 0 s.cursor_row).foldlM
        (fun g r => setRow? g r (blankRow s.cols)) s.primary).bind fun g =>
    (g.get? s.cursor_row).bind fun row =>
    (blankRange? row 0 (s.cursor_col + 1)).bind fun row2 =>
    (setRow? g s.cursor_row row2).bind fun g2 =>
    some { s with primary := g2 }
  else some s

/-- ScreenBuffer.erase_in_line(mode).  The source fetches
self.primary[self.cursor_row] before selecting the mode, so an
out-of-bounds cursor row raises for every mode. -/
def ScreenBuffer.erase_in_line (s : ScreenBuffer) (mode : Nat) :
    Option ScreenBuffer :=
  (s.primary.get? s.cursor_row).bind fun row =>
  (if mode = 2 then blankRange? row 0 s.cols
   else if mode = 0 then blankRange? row s.cursor_col s.cols
   else if mode = 1 then blankRange? row 0 (s.cursor_col + 1)
   else some row).bind fun row2 =>
  (setRow? s.primary s.cursor_row row2).bind fun g =>
  some { s with primary := g }

/-- ScreenBuffer.move_cursor(r, c): clamp both coordinates. -/
def ScreenBuffer.move_cursor (s : ScreenBuffer) (r c : Int) : ScreenBuffer :=
  { s with cursor_row := clampIdx r s.rows, cursor_col := clampIdx c s.cols }

/-- ScreenBuffer.save_cursor. -/
def ScreenBuffer.save_cursor (s : ScreenBuffer) : ScreenBuffer :=
  { s with saved_cursor := (s.cursor_row, s.cursor_col) }

/-- ScreenBuffer.restore_cursor: note there is no clamping here. -/
def ScreenBuffer.restore_cursor (s : ScreenBuffer) : ScreenBuffer :=
  { s with cursor_row := s.saved_cursor.1, cursor_col := s.saved_cursor.2 }

/-! ### ANSI parser (class AnsiParser in qt_terminal.py) -/

/-- Parser state: the current SGR style, the attached screen and the stored
other screen buffer used by the alternate-screen toggle. -/
@[ext]
structure AnsiParser where
  screen : ScreenBuffer
  fg : Option Color := none
  bg : Option Color := none
  bold : Bool := false
  italic : Bool := false
  underline : Bool := false
  inverse : Bool := false
  alt_screen : Option ScreenBuffer := none
deriving DecidableEq, Repr

/-- AnsiParser.__init__(screen). -/
def AnsiParser.init (screen : ScreenBuffer) : AnsiParser := { screen := screen }

/-- The 16 fixed palette entries of AnsiParser._xterm_256_to_qcolor. -/
def base16 : List Color :=
  [⟨0, 0, 0⟩, ⟨128, 0, 0⟩, ⟨0, 128, 0⟩, ⟨128, 128, 0⟩,
   ⟨0, 0, 128⟩, ⟨128, 0, 128⟩, ⟨0, 128, 128⟩, ⟨192, 192, 192⟩,
   ⟨128, 128, 128⟩, ⟨255, 0, 0⟩, ⟨0, 255, 0⟩, ⟨255, 255, 0⟩,
   ⟨0, 0, 255⟩, ⟨255, 0, 255⟩, ⟨0, 255, 255⟩, ⟨255, 255, 255⟩]

/-- The channel levels of the 6x6x6 cube, the list named to in the source. -/
def cubeLevels : List Nat := [0, 95, 135, 175, 215, 255]

/-- AnsiParser._xterm_256_to_qcolor(idx) for idx a parsed (non-negative)
CSI parameter. -/
def _xterm_256_to_qcolor (idx : Nat) : Color :=
  if idx < 16 then (base16.get? idx).getD ⟨0, 0, 0⟩
  else if idx ≤ 231 then
    let i := idx - 16
    let r := (i / 36) % 6
    let g := (i / 6) % 6
    let b := i % 6
    ⟨(cubeLevels.get? r).getD 0, (cubeLevels.get? g).getD 0,
     (cubeLevels.get? b).getD 0⟩
  else
    let shade := (clamp ((8 + (idx - 232) * 10 : Nat) : Int) 0 255).toNat
    ⟨shade, shade, shade⟩

/-- The RGB triple built by the 38/48 direct-color form 2;r;g;b. -/
def rgbColor (r g b : Nat) : Color :=
  ⟨(clamp (r : Int) 0 255).toNat, (clamp (g : Int) 0 255).toNat,
   (clamp (b : Int) 0 255).toNat⟩

/-- The while loop of AnsiParser._apply_sgr.  The source walks an index i
through params; here the i += 2 and i += 4 skips of the complete 38/48
extended-color forms become explicit list patterns (placed first: they are
disjoint from every other branch, whose tests are all on single values
other than 38 and 48).  An incomplete 38/48 form consumes only the 38/48
itself, as in the source. -/
def sgrStep : AnsiParser → List Nat → AnsiParser
  | p, [] => p
  | p, 38 :: 5 :: idx :: rest2 =>
      sgrStep { p with fg := some (_xterm_256_to_qcolor idx) } rest2
  | p, 48 :: 5 :: idx :: rest2 =>
      sgrStep { p with bg := some (_xterm_256_to_qcolor idx) } rest2
  | p, 38 :: 2 :: r :: g :: b :: rest2 =>
      sgrStep { p with fg := some (rgbColor r g b) } rest2
  | p, 48 :: 2 :: r :: g :: b :: rest2 =>
      sgrStep { p with bg := some (rgbColor r g b) } rest2
  | p, 38 :: rest => sgrStep p rest
  | p, 48 :: rest => sgrStep p rest
  | p, q :: rest =>
    if q = 0 then
      sgrStep { p with fg := none, bg := none, bold := false, italic := false,
                       underline := false, inverse := false } rest
    else if q = 1 then sgrStep { p with bold := true } rest
    else if q = 3 then sgrStep { p with italic := true } rest
    else if q = 4 then sgrStep { p with underline := true } rest
    else if q = 7 then sgrStep { p with inverse := true } rest
    else if q = 22 then sgrStep { p with bold := false } rest
    else if q = 23 then sgrStep { p with italic := false } rest
    else if q = 24 then sgrStep { p with underline := false } rest
    else if q = 27 then sgrStep { p with inverse := false } rest
    else if 30 ≤ q ∧ q ≤ 37 then
      sgrStep { p with fg := some (_xterm_256_to_qcolor (q - 30)) } rest
    else if q = 39 then sgrStep { p with fg := none } rest
    else if 40 ≤ q ∧ q ≤ 47 then
      sgrStep { p with bg := some (_xterm_256_to_qcolor (q - 40)) } rest
    else if q = 49 then sgrStep { p with bg := none } rest
    else if 90 ≤ q ∧ q ≤ 97 then
      sgrStep { p with fg := some (_xterm_256_to_qcolor (q - 90 + 8)) } rest
    else if 100 ≤ q ∧ q ≤ 107 then
      sgrStep { p with bg := some (_xterm_256_to_qcolor (q - 100 + 8)) } rest
    else sgrStep p rest

/-- AnsiParser._apply_sgr(params): an empty list is replaced by [0]. -/
def AnsiParser._apply_sgr (p : AnsiParser) (params : List Nat) : AnsiParser :=
  sgrStep p (if params = [] then [0] else params)

/-- Build the cell the parser writes for a plain character with the current
style (the body of _emit_plain). -/
def AnsiParser.curCell (p : AnsiParser) (ch : Char) : Cell :=
  ⟨ch, p.fg, p.bg, p.bold, p.italic, p.underline, p.inverse⟩

/-- Feed one plain character to the screen with the current style. -/
def AnsiParser.emitChar (p : AnsiParser) (ch : Char) : Option AnsiParser :=
  (p.screen.put_char (p.curCell ch)).map (fun scr => { p with screen := scr })

/-- The fresh alternate buffer made on first entry:
ScreenBuffer(rows, cols, 0) with the current cursor copied over. -/
def mkAlt (scr : ScreenBuffer) : ScreenBuffer :=
  { ScreenBuffer.init scr.rows scr.cols 0 with
      cursor_row := scr.cursor_row, cursor_col := scr.cursor_col }

/-- The body of the private-mode loop in _handle_csi for one parameter:
modes 47 and 1049 swap self.screen with self.alt_screen, creating the
alternate buffer on first use. -/
def privateModeStep (enable : Bool) (p : AnsiParser) (m : Nat) : AnsiParser :=
  if m = 47 ∨ m = 1049 then
    if enable then
      let p1 :=
        match p.alt_screen with
        | none => { p with alt_screen := some (mkAlt p.screen) }
        | some _ => p
      match p1.alt_screen with
      | some a => { p1 with screen := a, alt_screen := some p1.screen }
      | none => p1
    else
      match p.alt_screen with
      | some a => { p with screen := a, alt_screen := some p.screen }
      | none => p
  else p

/-- The for-loop over params in the private set/reset-mode branch. -/
def privateModes (enable : Bool) (params : List Nat) (p : AnsiParser) :
    AnsiParser :=
  params.foldl (privateModeStep enable) p

/-- params_raw.split(chr 59): splitting the empty string yields one empty
piece, exactly as in Python. -/
def splitSemis : List Char → List (List Char)
  | [] => [[]]
  | c :: rest =>
      if c = ';' then [] :: splitSemis rest
      else
        match splitSemis rest with
        | [] => [[c]]
        | g :: gs => (c :: g) :: gs

/-- Value of a non-empty decimal digit string. -/
def digitsToNat (cs : List Char) : Nat :=
  cs.foldl (fun a c => a * 10 + (c.toNat - 48)) 0

/-- int(piece) if piece else 0. -/
def toParam (cs : List Char) : Nat := if cs = [] then 0 else digitsToNat cs

/-- The parameter list computed at the top of _handle_csi (after the
private marker has been stripped). -/
def parseParams (run : List Char) : List Nat := (splitSemis run).map toParam

/-- params[0] if params else d. -/
def headOr (params : List Nat) (d : Nat) : Nat :=
  match params with
  | [] => d
  | q :: _ => q

/-- AnsiParser._handle_csi(params_raw, cmd); priv records the stripped
leading question mark, run holds the remaining parameter characters. -/
def AnsiParser.handle_csi (p : AnsiParser) (priv : Bool) (run : List Char)
    (cmd : Char) : Option AnsiParser :=
  let params := parseParams run
  if cmd = 'm' then some (p._apply_sgr params)
  else if cmd = 'H' ∨ cmd = 'f' then
    let row : Nat :=
      match params with
      | q :: _ => if q ≠ 0 then q - 1 else 0
      | [] => 0
    let col : Nat :=
      match params with
      | _ :: q :: _ => if q ≠ 0 then q - 1 else 0
      | _ => 0
    some { p with screen := p.screen.move_cursor (row : Int) (col : Int) }
  else if cmd = 'A' then
    let n := headOr params 1
    let scr := p.screen.move_cursor ((p.screen.cursor_row : Int) - n)
      (p.screen.cursor_col : Int)
    some { p with screen := scr }
  else if cmd = 'B' then
    let n := headOr params 1
    let scr := p.screen.move_cursor ((p.screen.cursor_row : Int) + n)
      (p.screen.cursor_col : Int)
    some { p with screen := scr }
  else if cmd = 'C' then
    let n := headOr params 1
    let scr := p.screen.move_cursor (p.screen.cursor_row : Int)
      ((p.screen.cursor_col : Int) + n)
    some { p with screen := scr }
  else if cmd = 'D' then
    let n := headOr params 1
    let scr := p.screen.move_cursor (p.screen.cursor_row : Int)
      ((p.screen.cursor_col : Int) - n)
    some { p with screen := scr }
  else if cmd = 'E' then
    let n := headOr params 1
    let scr := p.screen.move_cursor ((p.screen.cursor_row : Int) + n) 0
    some { p with screen := scr }
  else if cmd = 'F' then
    let n := headOr params 1
    let scr := p.screen.move_cursor ((p.screen.cursor_row : Int) - n) 0
    some { p with screen := scr }
  else if cmd = 'G' then
    let col : Int :=
      match params with
      | [] => 0
      | q :: _ => (q : Int) - 1
    let scr := p.screen.move_cursor (p.screen.cursor_row : Int) col
    some { p with screen := scr }
  else if cmd = 'J' then
    (p.screen.erase_in_display (headOr params 0)).map
      (fun scr => { p with screen := scr })
  else if cmd = 'K' then
    (p.screen.erase_in_line (headOr params 0)).map
      (fun scr => { p with screen := scr })
  else if cmd = 'S' then
    (p.screen.scroll_up (headOr params 1)).map
      (fun scr => { p with screen := scr })
  else if cmd = 's' then some { p with screen := p.screen.save_cursor }
  else if cmd = 'u' then some { p with screen := p.screen.restore_cursor }
  else if priv ∧ (cmd = 'h' ∨ cmd = 'l') then
    some (privateModes (cmd = 'h') params p)
  else some p

/-! ### AnsiParser.feed: preprocessing and the CSI scan loop.

feed receives bytes and first decodes them as UTF-8 with
errors equal to replace, which is total and maps ASCII bytes to
themselves; the embedding works on the decoded character stream. -/

/-- Scan an OSC body for the terminating BEL.  The Python pattern uses a
non-greedy dot, which does not match a newline, so a newline before the
first BEL means the whole pattern fails at this position. -/
def oscEnd : List Char → Option (List Char)
  | [] => none
  | c :: rest =>
      if c = '\x07' then some rest
      else if c = '\n' then none
      else oscEnd rest

/-- Recursion workhorse for stripOSC.  Every step consumes at least one
character of the scanned list, so a fuel equal to the initial length makes
the fuel-out case unreachable; the recursion is on the fuel only so that
the function evaluates by plain reduction. -/
def stripOSCAux : Nat → List Char → List Char
  | _, [] => []
  | 0, cs => cs
  | fuel + 1, '\x1b' :: ']' :: '0' :: ';' :: body =>
      match oscEnd body with
      | some rem => stripOSCAux fuel rem
      | none => '\x1b' :: stripOSCAux fuel (']' :: '0' :: ';' :: body)
  | fuel + 1, c :: rest => c :: stripOSCAux fuel rest

/-- re.sub of the OSC window-title pattern with the empty string: drop every
match of ESC ] 0 ; body BEL, scanning left to right. -/
def stripOSC (cs : List Char) : List Char := stripOSCAux cs.length cs

/-- re.sub of the character-set designation pattern: drop every
ESC ( or ESC ) followed by one of 0, A, B. -/
def stripCharset : List Char → List Char
  | '\x1b' :: br :: x :: rest =>
      if (br = '(' ∨ br = ')') ∧ (x = '0' ∨ x = 'A' ∨ x = 'B') then
        stripCharset rest
      else '\x1b' :: stripCharset (br :: x :: rest)
  | c :: rest => c :: stripCharset rest
  | [] => []

/-- re.sub of the DECSC/DECRC pattern: drop every ESC 7 and ESC 8. -/
def stripSaveRestore : List Char → List Char
  | '\x1b' :: c :: rest =>
      if c = '7' ∨ c = '8' then stripSaveRestore rest
      else '\x1b' :: stripSaveRestore (c :: rest)
  | c :: rest => c :: stripSaveRestore rest
  | [] => []

/-- Longest prefix drawn from the character class of digits and
semicolons. -/
def takeParamRun : List Char → List Char × List Char
  | [] => ([], [])
  | c :: rest =>
      if c.isDigit ∨ c = ';' then
        let t := takeParamRun rest
        (c :: t.1, t.2)
      else ([], c :: rest)

/-- The final-byte character class of the CSI pattern. -/
def isAsciiLetter (c : Char) : Bool :=
  decide (('A' ≤ c ∧ c ≤ 'Z') ∨ ('a' ≤ c ∧ c ≤ 'z'))

/-- The finditer loop of AnsiParser.feed: text outside CSI matches is fed
character by character; at each ESC [ the pattern optional-question-mark,
parameter run, final letter is attempted, and on failure the ESC is
emitted as plain text and scanning resumes one character later, exactly as
the regex engine does. -/
def feedLoopAux : Nat → AnsiParser → List Char → Option AnsiParser
  | _, p, [] => some p
  | 0, _, _ => none
  | fuel + 1, p, '\x1b' :: '[' :: rest =>
      let pr : Bool × List Char :=
        match rest with
        | '?' :: r => (true, r)
        | r => (false, r)
      let t := takeParamRun pr.2
      match t.2 with
      | f :: rem2 =>
          if isAsciiLetter f then
            match p.handle_csi pr.1 t.1 f with
            | none => none
            | some p2 => feedLoopAux fuel p2 rem2
          else
            match p.emitChar '\x1b' with
            | none => none
            | some p2 => feedLoopAux fuel p2 ('[' :: rest)
      | [] =>
          match p.emitChar '\x1b' with
          | none => none
          | some p2 => feedLoopAux fuel p2 ('[' :: rest)
  | fuel + 1, p, c :: rest =>
      match p.emitChar c with
      | none => none
      | some p2 => feedLoopAux fuel p2 rest

/-- AnsiParser.feed on the decoded character stream: strip OSC titles, then
character-set designations, then bare ESC 7 / ESC 8, then run the CSI scan
loop.  Every loop step consumes at least one character, so a fuel equal to
the stream length makes the fuel-out case unreachable. -/
def AnsiParser.feed (p : AnsiParser) (txt : List Char) : Option AnsiParser :=
  let cs := stripSaveRestore (stripCharset (stripOSC txt))
  feedLoopAux cs.length p cs

/-! ### Screen-model operations as a syntactic type, for invariant claims -/

/-- The Screen Model operations named by the specification. -/
inductive Op where
  | put (cell : Cell)
  | lineFeed
  | scrollUp (n : Nat)
  | eraseInDisplay (mode : Nat)
  | eraseInLine (mode : Nat)
  | moveCursor (r c : Int)
  | saveCursor
  | restoreCursor
  | reset
  | resize (rows cols : Nat)
deriving DecidableEq, Repr

/-- Run one operation; the total methods are wrapped in some. -/
def applyOp : Op → ScreenBuffer → Option ScreenBuffer
  | .put cell, s => s.put_char cell
  | .lineFeed, s => s.newline
  | .scrollUp n, s => s.scroll_up n
  | .eraseInDisplay m, s => s.erase_in_display m
  | .eraseInLine m, s => s.erase_in_line m
  | .moveCursor r c, s => some (s.move_cursor r c)
  | .saveCursor, s => some s.save_cursor
  | .restoreCursor, s => some s.restore_cursor
  | .reset, s => some s.reset
  | .resize r c, s => some (s.resize r c)

/-- Run a sequence of operations. -/
def applyOps (ops : List Op) (s : ScreenBuffer) : Option ScreenBuffer :=
  ops.foldlM (fun s op => applyOp op s) s

/-- The grid-shape invariant: the primary grid holds exactly rows rows of
exactly cols cells each. -/
def GridShape (s : ScreenBuffer) : Prop :=
  s.primary.length = s.rows ∧ ∀ row ∈ s.primary, row.length = s.cols

/-- Structural validity of a buffer: positive dimensions, well-shaped grid,
cursor inside the (deferred-wrap) bounds and scrollback within its limit.
Every buffer the widget constructs and resizes satisfies this. -/
def Valid (s : ScreenBuffer) : Prop :=
  0 < s.rows ∧ 0 < s.cols ∧ GridShape s ∧
  s.cursor_row < s.rows ∧ s.cursor_col ≤ s.cols ∧
  s.scrollback.length ≤ s.scrollback_limit

/-- The saved cursor slot is inside the current bounds. -/
def SavedOK (s : ScreenBuffer) : Prop :=
  s.saved_cursor.1 < s.rows ∧ s.saved_cursor.2 ≤ s.cols

/-- Side condition per operation under which validity is preserved:
restore_cursor needs an in-bounds saved slot and resize needs positive
target dimensions (the widget always passes at least 1). -/
def OpOK : Op → ScreenBuffer → Prop
  | .restoreCursor, s => SavedOK s
  | .resize r c, _ => 0 < r ∧ 0 < c
  | _, _ => True

instance : DecidablePred GridShape := fun s => by
  unfold GridShape
  infer_instance

instance : DecidablePred Valid := fun s => by
  unfold Valid
  infer_instance

instance : DecidablePred SavedOK := fun s => by
  unfold SavedOK
  infer_instance

/-- Timeline of a buffer: scrollback followed by the primary grid. -/
def timeline (s : ScreenBuffer) : List (List Cell) :=
  s.scrollback ++ s.primary

/-- The last k elements of a list (a deque trimmed to capacity k keeps
exactly these). -/
def lastN (k : Nat) (xs : List α) : List α := xs.drop (xs.length - k)

/-- Read one cell of the primary grid. -/
def readCell (s : ScreenBuffer) (r c : Nat) : Option Cell :=
  (s.primary.get? r).bind (fun row => row.get? c)

/-! ### Process monitor (ManagedTerminalWidget in managed_terminal.py) -/

/-- The fields of ManagedTerminalWidget that the monitor logic touches. -/
@[ext]
structure HostState where
  child_pid : Option Nat
  monitor_on : Bool
  process_exit_code : Option Int
deriving DecidableEq, Repr

/-- What one non-blocking os.waitpid(pid, WNOHANG) call can report:
nothing yet (pid 0), an exit-status word, or one of the two caught
exception classes. -/
inductive PollR where
  | stillRunning
  | reaped (status : Nat)
  | errChild
  | errOS
deriving DecidableEq, Repr

/-- State after ManagedTerminalWidget.run has started a process: the pid is
recorded, the pending code cleared and the monitor timer started. -/
def runState (pid : Nat) : HostState :=
  { child_pid := some pid, monitor_on := true, process_exit_code := none }

/-- os.WIFEXITED on the status word, from its POSIX definition. -/
def WIFEXITED (s : Nat) : Bool := s % 128 == 0

/-- os.WEXITSTATUS. -/
def WEXITSTATUS (s : Nat) : Nat := (s / 256) % 256

/-- os.WIFSIGNALED. -/
def WIFSIGNALED (s : Nat) : Bool := 0 < (s % 128 + 1) / 2

/-- os.WTERMSIG. -/
def WTERMSIG (s : Nat) : Nat := s % 128

/-- The decoding performed by _check_process_status: a normal exit maps to
its exit code, a signal death to minus the signal number, anything else
to -1. -/
def decodeStatus (status : Nat) : Int :=
  if WIFEXITED status then (WEXITSTATUS status : Int)
  else if WIFSIGNALED status then -(WTERMSIG status : Int)
  else -1

/-- ManagedTerminalWidget._check_process_status: one timer tick, given what
waitpid reports.  Returns the new state and the emitted finished payload,
if any. -/
def check_process_status (st : HostState) (r : PollR) :
    HostState × Option Int :=
  match st.child_pid with
  | none => (st, none)
  | some _ =>
      match r with
      | .stillRunning => (st, none)
      | .reaped status =>
          let code := decodeStatus status
          ({ child_pid := none, monitor_on := false,
             process_exit_code := some code }, some code)
      | .errChild => (st, none)
      | .errOS => (st, none)

/-- Run the monitor over a whole sequence of timer ticks, collecting every
finished emission in order. -/
def pollTrace (st : HostState) : List PollR → HostState × List Int
  | [] => (st, [])
  | r :: rs =>
      let t := check_process_status st r
      let u := pollTrace t.1 rs
      (u.1, t.2.toList ++ u.2)

/-- The first exit-status word a trace reports, if any. -/
def firstReaped : List PollR → Option Nat
  | [] => none
  | .reaped s :: _ => some s
  | _ :: rs => firstReaped rs

/-- The channel value of a cube coordinate per the specification's step set
0, 95, 135, 175, 215, 255 (spec-side formulation, to compare with the
code's table). -/
def specCubeLevel : Nat → Nat
  | 0 => 0
  | 1 => 95
  | 2 => 135
  | 3 => 175
  | 4 => 215
  | _ => 255

/-- Frame facts shared by the screen-mutating operations: dimensions and
scrollback limit are untouched, a well-shaped grid stays well shaped, and a
within-limit scrollback stays within limit. -/
def Frame (s t : ScreenBuffer) : Prop :=
  t.rows = s.rows ∧ t.cols = s.cols ∧
  t.scrollback_limit = s.scrollback_limit ∧
  (GridShape s → GridShape t) ∧
  (s.scrollback.length ≤ s.scrollback_limit →
    t.scrollback.length ≤ t.scrollback_limit)

/-! ### Theorems -/

/-- Clamping an already clamped index changes nothing. -/
theorem clampIdx_idem (v : Int) (n : Nat) :
    clampIdx ((clampIdx v n : Nat) : Int) n = clampIdx v n := by
  simp only [clampIdx, clamp]
  omega

/-- An in-range index is left unchanged by the clamp. -/
theorem clampIdx_of_lt (v : Nat) (n : Nat) (h : v < n) :
    clampIdx (v : Int) n = v := by
  simp only [clampIdx, clamp]
  omega

/-- The clamped index is always below a positive bound. -/
theorem clampIdx_lt (v : Int) (n : Nat) (h : 0 < n) : clampIdx v n < n := by
  simp only [clampIdx, clamp]
  omega

/-- C1: the spec's no-raise policy fails on the code.  On a 2-by-2 screen,
writing two characters leaves the cursor in the deferred-wrap state
cursor_col = cols, and the following CSI 1 J reaches
self.primary[cursor_row][cursor_col] = Cell() with cursor_col = cols = 2 on
a row of length 2, an IndexError: the whole feed call raises (returns
none in the embedding) instead of leaving the screen model intact. -/
theorem c1_feed_raises_on_erase_after_wrap :
    (AnsiParser.init (ScreenBuffer.init 2 2 5)).feed "AA\x1b[1J".toList =
      none := by
  rfl

/-- C3 counterexample: move_cursor(2,2); save_cursor(); resize(1,1);
restore_cursor() on a fresh 3-by-3 buffer leaves cursor_row = 2 although
rows = 1, because resize does not re-clamp the saved slot and
restore_cursor does not clamp at all.  The claimed invariant
cursor_row < rows is violated after a listed operation. -/
theorem c3_counterexample :
    (applyOps [.moveCursor 2 2, .saveCursor, .resize 1 1, .restoreCursor]
        (ScreenBuffer.init 3 3 5)).map
      (fun s => (s.cursor_row, s.rows, decide (s.cursor_row < s.rows))) =
      some (2, 1, false) := by
  rfl

/-- C4 counterexample: a bare CSI B on a fresh 2-by-2 buffer leaves the
cursor on row 0; the claim says the empty parameter list defaults the
count to 1, which would move it to row 1.  (params_raw.split yields one
empty piece, parsed as 0, so the count is 0.) -/
theorem c4_counterexample :
    ((AnsiParser.init (ScreenBuffer.init 2 2 5)).feed "\x1b[B".toList).map
        (fun q => q.screen.cursor_row) = some 0 ∧
      ((AnsiParser.init (ScreenBuffer.init 2 2 5)).feed "\x1b[B".toList).map
        (fun q => q.screen.cursor_row) ≠ some 1 := by
  constructor
  · rfl
  · decide

/-- C6 counterexample: after CSI ? 47 h the active screen is the fresh
zero-scrollback alternate buffer (limit 0); a second CSI ? 47 h swaps back
to the primary buffer (limit 5) instead of being a no-op, because the code
swaps unconditionally whenever alt_screen is already populated. -/
theorem c6_counterexample :
    ((AnsiParser.init (ScreenBuffer.init 2 2 5)).feed "\x1b[?47h".toList).map
        (fun q => q.screen.scrollback_limit) = some 0 ∧
      ((AnsiParser.init (ScreenBuffer.init 2 2 5)).feed
          "\x1b[?47h\x1b[?47h".toList).map
        (fun q => q.screen.scrollback_limit) = some 5 := by
  exact ⟨rfl, rfl⟩

/-- C5 counterexample: on a buffer that already holds a scrollback row
(reachable from a fresh 2-by-1, capacity-2 buffer by one put and one
scroll), the timeline after scroll_up(1) is not the claimed
trimmed-top-rows ++ remaining-rows ++ blanks concatenation: the
pre-existing scrollback row still precedes everything. -/
theorem c5_counterexample :
    ((applyOps [.put ⟨'X', none, none, false, false, false, false⟩,
          .scrollUp 1] (ScreenBuffer.init 2 1 2)).bind
        (fun s => (s.scroll_up 1).map (fun t =>
          timeline t ==
            lastN s.scrollback_limit (s.primary.take 1) ++
              s.primary.drop 1 ++ List.replicate 1 (blankRow s.cols)))) =
      some false := by
  rfl

/-- C8: the 256-color palette map is a pure function of the index; on the
cube range 16..231 it reproduces the 6x6x6 cube over the channel steps
0, 95, 135, 175, 215, 255 (index 16 + 36r + 6g + b maps to the triple of
the three channel levels, in particular 16 to black and 231 to white), and
on 232..255 it is the grayscale ramp 8 + 10n on all three channels. -/
theorem c8_palette_pure_cube_gray :
    (∀ r, r < 6 → ∀ g, g < 6 → ∀ b, b < 6 →
        _xterm_256_to_qcolor (16 + 36 * r + 6 * g + b) =
          ⟨specCubeLevel r, specCubeLevel g, specCubeLevel b⟩) ∧
    (∀ n, n < 24 →
        _xterm_256_to_qcolor (232 + n) =
          ⟨8 + 10 * n, 8 + 10 * n, 8 + 10 * n⟩) ∧
    _xterm_256_to_qcolor 16 = ⟨0, 0, 0⟩ ∧
    _xterm_256_to_qcolor 231 = ⟨255, 255, 255⟩ ∧
    (∀ k : Nat, _xterm_256_to_qcolor k = _xterm_256_to_qcolor k) :=
  ⟨by decide, by decide, by decide, by decide, fun k => rfl⟩

/-- Witness for c8_palette_pure_cube_gray at concrete indices 231 and
240. -/
theorem c8_palette_witness :
    _xterm_256_to_qcolor (16 + 36 * 5 + 6 * 5 + 5) = ⟨255, 255, 255⟩ ∧
    _xterm_256_to_qcolor (232 + 8) = ⟨88, 88, 88⟩ :=
  ⟨c8_palette_pure_cube_gray.1 5 (by decide) 5 (by decide) 5 (by decide),
   c8_palette_pure_cube_gray.2.1 8 (by decide)⟩

/-- C9: resize is idempotent, for every buffer state and both arguments:
the second call with identical arguments changes nothing.  After the first
call the stored dimensions equal the arguments, so the second call takes no
row or column branch, and re-clamping an already clamped cursor is the
identity. -/
theorem c9_resize_idempotent (s : ScreenBuffer) (rows cols : Nat) :
    (s.resize rows cols).resize rows cols = s.resize rows cols := by
  obtain ⟨v, hv⟩ : ∃ v : Int,
      (s.resize rows cols).cursor_row = clampIdx v rows :=
    ⟨_, rfl⟩
  obtain ⟨w, hw⟩ : ∃ w : Int,
      (s.resize rows cols).cursor_col = clampIdx w cols :=
    ⟨_, rfl⟩
  have hrows : (s.resize rows cols).rows = rows := rfl
  have hcols : (s.resize rows cols).cols = cols := rfl
  set t := s.resize rows cols with ht
  show t.resize rows cols = t
  rw [ScreenBuffer.resize]
  simp only [hrows, hcols, lt_irrefl, if_false, ne_eq, not_true_eq_false,
    if_neg, ite_self, reduceIte]
  ext1
  all_goals simp only []
  all_goals first
    | rfl
    | (rw [hv, clampIdx_idem, ← hv])
    | (rw [hw, clampIdx_idem, ← hw])

/-- A monitor whose child_pid is gone never emits anything. -/
theorem pollTrace_dead (trace : List PollR) (st : HostState)
    (h : st.child_pid = none) : (pollTrace st trace).2 = [] := by
  induction trace generalizing st with
  | nil => rfl
  | cons r rs ih =>
      simp only [pollTrace, check_process_status, h]
      exact ih st h

/-- With a live child_pid, the emitted finished payloads of a whole tick
sequence are exactly the decoding of the first reaped status, if any. -/
theorem pollTrace_emits (trace : List PollR) (st : HostState) (pid : Nat)
    (h : st.child_pid = some pid) :
    (pollTrace st trace).2 = ((firstReaped trace).map decodeStatus).toList := by
  induction trace generalizing st with
  | nil => rfl
  | cons r rs ih =>
      cases r with
      | stillRunning =>
          simp only [pollTrace, check_process_status, h, firstReaped]
          exact ih st h
      | reaped status =>
          simp only [pollTrace, check_process_status, h, firstReaped]
          rw [pollTrace_dead rs _ rfl]
          rfl
      | errChild =>
          simp only [pollTrace, check_process_status, h, firstReaped]
          exact ih st h
      | errOS =>
          simp only [pollTrace, check_process_status, h, firstReaped]
          exact ih st h

/-- C2: after run() starts a process, the finished signal fires exactly
once per start, namely on the first tick whose non-blocking waitpid reports
the exit, and carries the decoded code: a normal exit status word (exit
code shifted left eight bits) decodes to the exit code and a signal death
decodes to minus the signal number. -/
theorem c2_termination_event :
    (∀ pid trace, (pollTrace (runState pid) trace).2 =
        ((firstReaped trace).map decodeStatus).toList) ∧
    (∀ c, c < 256 → decodeStatus (256 * c) = (c : Int)) ∧
    (∀ g, 0 < g → g < 127 → decodeStatus g = -(g : Int)) := by
  refine ⟨fun pid trace => pollTrace_emits trace _ pid rfl, ?_, ?_⟩
  · intro c hc
    have h1 : WIFEXITED (256 * c) = true := by
      simp only [WIFEXITED, beq_iff_eq]
      omega
    simp only [decodeStatus, h1, if_true, WEXITSTATUS]
    have : (256 * c / 256) % 256 = c := by omega
    rw [this]
  · intro g h0 h127
    have h1 : WIFEXITED g = false := by
      simp only [WIFEXITED, beq_eq_false_iff_ne, ne_eq]
      omega
    have h2 : WIFSIGNALED g = true := by
      simp only [WIFSIGNALED, decide_eq_true_eq]
      omega
    have h3 : WTERMSIG g = g := by
      simp only [WTERMSIG]
      omega
    simp [decodeStatus, h1, h2, h3]

/-- Witness for c2_termination_event: a trace that reports the exit twice
still emits finished exactly once with the first decoded code, and the two
decode laws at concrete status words. -/
theorem c2_termination_event_witness :
    (pollTrace (runState 7)
        [PollR.stillRunning, PollR.reaped 0, PollR.reaped 256]).2 = [0] ∧
    decodeStatus (256 * 3) = 3 ∧ decodeStatus 2 = -2 :=
  ⟨(c2_termination_event.1 7
      [PollR.stillRunning, PollR.reaped 0, PollR.reaped 256]).trans
    (by decide),
   c2_termination_event.2.1 3 (by decide),
   c2_termination_event.2.2 2 (by decide) (by decide)⟩

/-- Pushing onto a within-limit scrollback keeps it within limit. -/
theorem pushSB_length_le (limit : Nat) (sb : List (List Cell))
    (row : List Cell) (h : sb.length ≤ limit) :
    (pushSB limit sb row).length ≤ limit := by
  simp only [pushSB]
  split
  all_goals simp_all

/-- A successful cell store preserves the number of rows. -/
theorem setCell?_length (g g' : List (List Cell)) (r c : Nat) (cell : Cell)
    (h : setCell? g r c cell = some g') : g'.length = g.length := by
  unfold setCell? at h
  split at h
  · exact absurd h (by simp)
  · split at h
    · simp only [Option.some_inj] at h
      subst h
      simp
    · exact absurd h (by simp)

/-- A successful cell store preserves the width of every row. -/
theorem setCell?_rows (g g' : List (List Cell)) (r c : Nat) (cell : Cell)
    (cols : Nat) (h : setCell? g r c cell = some g')
    (hg : ∀ row ∈ g, row.length = cols) : ∀ row ∈ g', row.length = cols := by
  unfold setCell? at h
  split at h
  · exact absurd h (by simp)
  · rename_i row0 hrow0
    split at h
    · simp only [Option.some_inj] at h
      subst h
      intro x hx
      rcases List.mem_or_eq_of_mem_set hx with hin | heq
      · exact hg x hin
      · subst heq
        rw [List.length_set]
        exact hg row0 (List.get?_mem hrow0)
    · exact absurd h (by simp)

/-- A successful row store preserves the number of rows, and every row of
the result is either an old row or the stored one. -/
theorem setRow?_spec (g g' : List (List Cell)) (r : Nat) (row : List Cell)
    (h : setRow? g r row = some g') :
    g'.length = g.length ∧ ∀ x ∈ g', x ∈ g ∨ x = row := by
  unfold setRow? at h
  split at h
  · simp only [Option.some_inj] at h
    subst h
    refine ⟨by simp, ?_⟩
    intro x hx
    exact List.mem_or_eq_of_mem_set hx
  · exact absurd h (by simp)

/-- Iterated row blanking (the erase loops) preserves the number of rows
and keeps every row either old or blank. -/
theorem foldlM_setRow_spec (l : List Nat) (g g' : List (List Cell))
    (row : List Cell)
    (h : l.foldlM (fun g r => setRow? g r row) g = some g') :
    g'.length = g.length ∧ ∀ x ∈ g', x ∈ g ∨ x = row := by
  induction l generalizing g with
  | nil =>
      simp only [List.foldlM_nil, pure, Option.some_inj] at h
      subst h
      exact ⟨rfl, fun x hx => Or.inl hx⟩
  | cons r rs ih =>
      simp only [List.foldlM_cons, Option.bind_eq_bind,
        Option.bind_eq_some] at h
      obtain ⟨g1, h1, h2⟩ := h
      obtain ⟨hl1, hm1⟩ := setRow?_spec g g1 r row h1
      obtain ⟨hl2, hm2⟩ := ih g1 h2
      refine ⟨hl2.trans hl1, ?_⟩
      intro x hx
      rcases hm2 x hx with hin | heq
      · exact hm1 x hin
      · exact Or.inr heq

/-- Iterated cell blanking (the in-row erase loops) preserves the row
width. -/
theorem foldlM_setCell_length (l : List Nat) (row row' : List Cell)
    (h : l.foldlM
        (fun r c => if c < r.length then some (r.set c Cell.blank) else none)
        row = some row') : row'.length = row.length := by
  induction l generalizing row with
  | nil =>
      simp only [List.foldlM_nil, pure, Option.some_inj] at h
      subst h
      rfl
  | cons c cs ih =>
      simp only [List.foldlM_cons, Option.bind_eq_bind,
        Option.bind_eq_some] at h
      obtain ⟨r1, h1, h2⟩ := h
      split at h1
      · simp only [Option.some_inj] at h1
        subst h1
        rw [ih _ h2, List.length_set]
      · exact absurd h1 (by simp)

/-- blankRange? preserves the row width. -/
theorem blankRange?_length (row row' : List Cell) (a b : Nat)
    (h : blankRange? row a b = some row') : row'.length = row.length :=
  foldlM_setCell_length _ row row' h
theorem frame_refl (s : ScreenBuffer) : Frame s s :=
  ⟨rfl, rfl, rfl, id, id⟩

theorem frame_trans {s t u : ScreenBuffer} (h1 : Frame s t)
    (h2 : Frame t u) : Frame s u := by
  obtain ⟨a1, b1, c1, d1, e1⟩ := h1
  obtain ⟨a2, b2, c2, d2, e2⟩ := h2
  exact ⟨a2.trans a1, b2.trans b1, c2.trans c1, fun h => d2 (d1 h),
    fun h => e2 (e1 h)⟩

/-- Dropping the top row and appending a blank one keeps the grid shape. -/
theorem shape_append_blank (top : List Cell) (rest : List (List Cell))
    (rows cols : Nat) (hlen : (top :: rest).length = rows)
    (hrows : ∀ row ∈ top :: rest, row.length = cols) :
    (rest ++ [blankRow cols]).length = rows ∧
      ∀ row ∈ rest ++ [blankRow cols], row.length = cols := by
  constructor
  · simp only [List.length_cons] at hlen
    simp only [List.length_append, List.length_cons, List.length_nil]
    omega
  · intro row hrow
    rcases List.mem_append.mp hrow with hin | heq
    · exact hrows row (List.mem_cons_of_mem top hin)
    · rw [List.mem_singleton] at heq
      subst heq
      simp [blankRow]

/-- One scroll step keeps the frame facts and does not move the cursor or
the saved slot. -/
theorem scrollUpStep_spec (s s' : ScreenBuffer)
    (h : s.scrollUpStep = some s') :
    Frame s s' ∧ s'.cursor_row = s.cursor_row ∧
      s'.cursor_col = s.cursor_col ∧ s'.saved_cursor = s.saved_cursor := by
  unfold ScreenBuffer.scrollUpStep at h
  rcases hp : s.primary with _ | ⟨top, rest⟩
  all_goals rw [hp] at h
  · exact absurd h (by simp)
  · by_cases hl : 0 < s.scrollback_limit
    all_goals simp only [hl, if_true, if_false, reduceIte,
      Option.some_inj] at h
    all_goals subst h
    · refine ⟨⟨rfl, rfl, rfl, fun hs => ?_, fun hsb => ?_⟩, rfl, rfl, rfl⟩
      · obtain ⟨hlen, hrows⟩ := hs
        rw [hp] at hlen hrows
        exact shape_append_blank top rest s.rows s.cols hlen hrows
      · exact pushSB_length_le _ _ _ hsb
    · refine ⟨⟨rfl, rfl, rfl, fun hs => ?_, fun hsb => hsb⟩, rfl, rfl, rfl⟩
      obtain ⟨hlen, hrows⟩ := hs
      rw [hp] at hlen hrows
      exact shape_append_blank top rest s.rows s.cols hlen hrows

/-- scroll_up keeps the frame facts and the cursor and saved slot. -/
theorem scroll_up_spec (n : Nat) (s s' : ScreenBuffer)
    (h : s.scroll_up n = some s') :
    Frame s s' ∧ s'.cursor_row = s.cursor_row ∧
      s'.cursor_col = s.cursor_col ∧ s'.saved_cursor = s.saved_cursor := by
  induction n generalizing s with
  | zero =>
      simp only [ScreenBuffer.scroll_up, Option.some_inj] at h
      subst h
      exact ⟨frame_refl s, rfl, rfl, rfl⟩
  | succ n ih =>
      simp only [ScreenBuffer.scroll_up, Option.bind_eq_bind,
        Option.bind_eq_some] at h
      obtain ⟨s1, h1, h2⟩ := h
      obtain ⟨f1, r1, c1, v1⟩ := scrollUpStep_spec s s1 h1
      obtain ⟨f2, r2, c2, v2⟩ := ih s1 h2
      exact ⟨frame_trans f1 f2, r2.trans r1, c2.trans c1, v2.trans v1⟩

/-- newline keeps the frame facts and the saved slot, zeroes the column and
moves the row to min(cursor_row + 1, rows - 1). -/
theorem newline_spec (s s' : ScreenBuffer) (h : s.newline = some s') :
    Frame s s' ∧ s'.cursor_col = 0 ∧
      s'.cursor_row = min (s.cursor_row + 1) (s.rows - 1) ∧
      s'.saved_cursor = s.saved_cursor := by
  unfold ScreenBuffer.newline at h
  by_cases hc : s.rows ≤ s.cursor_row + 1
  · simp only [hc, if_true, reduceIte, Option.bind_eq_bind,
      Option.bind_eq_some, pure, Option.some_inj] at h
    obtain ⟨s2, h1, h2⟩ := h
    obtain ⟨⟨fr, fc, fl, fs, fb⟩, r2, c2, v2⟩ := scroll_up_spec 1 _ s2 h1
    subst h2
    refine ⟨⟨fr, fc, fl, fs, fb⟩, c2, ?_, v2⟩
    simp only [fr]
    omega
  · simp only [hc, if_false, reduceIte, pure, Option.some_inj] at h
    subst h
    refine ⟨frame_refl _, rfl, ?_, rfl⟩
    simp only []
    omega

/-- _write_char keeps the frame facts and the saved slot. -/
theorem write_char_frame (s s' : ScreenBuffer) (cell : Cell)
    (h : s._write_char cell = some s') :
    Frame s s' ∧ s'.saved_cursor = s.saved_cursor := by
  unfold ScreenBuffer._write_char at h
  have main : ∀ s1 : ScreenBuffer, Frame s s1 →
      s1.saved_cursor = s.saved_cursor →
      (if s1.cursor_row < s1.rows ∧ s1.cursor_col < s1.cols then
        match setCell? s1.primary s1.cursor_row s1.cursor_col cell with
        | none => none
        | some g =>
            some { s1 with primary := g, cursor_col := s1.cursor_col + 1 }
      else some s1) = some s' →
      Frame s s' ∧ s'.saved_cursor = s.saved_cursor := by
    intro s1 f1 v1 h2
    by_cases hg : s1.cursor_row < s1.rows ∧ s1.cursor_col < s1.cols
    · rw [if_pos hg] at h2
      rcases hset : setCell? s1.primary s1.cursor_row s1.cursor_col cell
        with _ | g
      all_goals rw [hset] at h2
      · exact absurd h2 (by simp)
      · simp only [Option.some_inj] at h2
        subst h2
        refine ⟨frame_trans f1 ⟨rfl, rfl, rfl, fun hs => ?_, fun hb => hb⟩,
          v1⟩
        obtain ⟨hlen, hrows⟩ := hs
        constructor
        · rw [setCell?_length _ _ _ _ _ hset]
          exact hlen
        · exact setCell?_rows _ _ _ _ _ _ hset hrows
    · rw [if_neg hg] at h2
      simp only [Option.some_inj] at h2
      subst h2
      exact ⟨f1, v1⟩
  by_cases hwrap : s.cols ≤ s.cursor_col
  · rw [if_pos hwrap] at h
    rcases hn : s.newline with _ | s1
    all_goals rw [hn] at h
    · exact absurd h (by simp)
    · obtain ⟨f1, _, _, v1⟩ := newline_spec s s1 hn
      exact main s1 f1 v1 h
  · rw [if_neg hwrap] at h
    exact main s (frame_refl s) rfl h

/-- _write_char keeps the cursor inside the bounds. -/
theorem write_char_cursor (s s' : ScreenBuffer) (cell : Cell)
    (h : s._write_char cell = some s') (_h0 : 0 < s.rows)
    (hr : s.cursor_row < s.rows) (hc : s.cursor_col ≤ s.cols) :
    s'.cursor_row < s.rows ∧ s'.cursor_col ≤ s.cols := by
  unfold ScreenBuffer._write_char at h
  have main : ∀ s1 : ScreenBuffer, s1.cursor_row < s.rows →
      s1.cursor_col ≤ s.cols → s1.cols = s.cols →
      (if s1.cursor_row < s1.rows ∧ s1.cursor_col < s1.cols then
        match setCell? s1.primary s1.cursor_row s1.cursor_col cell with
        | none => none
        | some g =>
            some { s1 with primary := g, cursor_col := s1.cursor_col + 1 }
      else some s1) = some s' →
      s'.cursor_row < s.rows ∧ s'.cursor_col ≤ s.cols := by
    intro s1 hr1 hc1 hcl h2
    by_cases hg : s1.cursor_row < s1.rows ∧ s1.cursor_col < s1.cols
    · rw [if_pos hg] at h2
      rcases hset : setCell? s1.primary s1.cursor_row s1.cursor_col cell
        with _ | g
      all_goals rw [hset] at h2
      · exact absurd h2 (by simp)
      · simp only [Option.some_inj] at h2
        subst h2
        refine ⟨hr1, ?_⟩
        have := hg.2
        simp only []
        omega
    · rw [if_neg hg] at h2
      simp only [Option.some_inj] at h2
      subst h2
      exact ⟨hr1, hc1⟩
  by_cases hwrap : s.cols ≤ s.cursor_col
  · rw [if_pos hwrap] at h
    rcases hn : s.newline with _ | s1
    all_goals rw [hn] at h
    · exact absurd h (by simp)
    · obtain ⟨⟨fr, fc, _, _, _⟩, c1, r1, _⟩ := newline_spec s s1 hn
      refine main s1 ?_ ?_ fc h
      · rw [r1]
        omega
      · rw [c1]
        omega
  · rw [if_neg hwrap] at h
    exact main s hr hc rfl h

/-- The tab loop keeps the frame facts, the saved slot and the cursor
bounds. -/
theorem writeCharN_spec (n : Nat) (s s' : ScreenBuffer) (cell : Cell)
    (h : s.writeCharN cell n = some s') :
    (Frame s s' ∧ s'.saved_cursor = s.saved_cursor) ∧
      (0 < s.rows → s.cursor_row < s.rows → s.cursor_col ≤ s.cols →
        s'.cursor_row < s'.rows ∧ s'.cursor_col ≤ s'.cols) := by
  induction n generalizing s with
  | zero =>
      simp only [ScreenBuffer.writeCharN, Option.some_inj] at h
      subst h
      exact ⟨⟨frame_refl s, rfl⟩, fun _ hr hc => ⟨hr, hc⟩⟩
  | succ n ih =>
      simp only [ScreenBuffer.writeCharN, Option.bind_eq_bind,
        Option.bind_eq_some] at h
      obtain ⟨s1, h1, h2⟩ := h
      obtain ⟨f1, v1⟩ := write_char_frame s s1 cell h1
      obtain ⟨⟨f2, v2⟩, cur2⟩ := ih s1 h2
      refine ⟨⟨frame_trans f1 f2, v2.trans v1⟩, fun h0 hr hc => ?_⟩
      obtain ⟨hr1, hc1⟩ := write_char_cursor s s1 cell h1 h0 hr hc
      obtain ⟨fr, fc, _, _, _⟩ := f1
      refine cur2 ?_ ?_ ?_
      · rw [fr]
        exact h0
      · rw [fr]
        exact hr1
      · rw [fc]
        exact hc1

/-- put_char keeps the frame facts and the saved slot, and keeps the
cursor in bounds. -/
theorem put_char_spec (s s' : ScreenBuffer) (cell : Cell)
    (h : s.put_char cell = some s') :
    (Frame s s' ∧ s'.saved_cursor = s.saved_cursor) ∧
      (0 < s.rows → s.cursor_row < s.rows → s.cursor_col ≤ s.cols →
        s'.cursor_row < s'.rows ∧ s'.cursor_col ≤ s'.cols) := by
  unfold ScreenBuffer.put_char at h
  by_cases h1 : cell.ch = '\n'
  · rw [if_pos h1] at h
    obtain ⟨f, c1, r1, v1⟩ := newline_spec s s' h
    have fr := f.1
    refine ⟨⟨f, v1⟩, fun h0 hr hc => ⟨?_, ?_⟩⟩
    · rw [r1, fr]
      omega
    · rw [c1]
      omega
  · rw [if_neg h1] at h
    by_cases h2 : cell.ch = '\r'
    · rw [if_pos h2] at h
      simp only [Option.some_inj] at h
      subst h
      exact ⟨⟨frame_refl _, rfl⟩, fun _ hr _ => ⟨hr, Nat.zero_le _⟩⟩
    · rw [if_neg h2] at h
      by_cases h3 : cell.ch = '\x08'
      · rw [if_pos h3] at h
        simp only [Option.some_inj] at h
        subst h
        exact ⟨⟨frame_refl _, rfl⟩,
          fun _ hr hc => ⟨hr, le_trans (Nat.sub_le _ _) hc⟩⟩
      · rw [if_neg h3] at h
        by_cases h4 : cell.ch = '\t'
        · rw [if_pos h4] at h
          exact writeCharN_spec _ s s' _ h
        · rw [if_neg h4] at h
          obtain ⟨f, v⟩ := write_char_frame s s' cell h
          have fr := f.1
          have fc := f.2.1
          refine ⟨⟨f, v⟩, fun h0 hr hc => ?_⟩
          obtain ⟨a, b⟩ := write_char_cursor s s' cell h h0 hr hc
          rw [fr, fc]
          exact ⟨a, b⟩

/-- One shrink step of resize: dimensions and limit unchanged, one top row
removed (if any), all remaining rows old, scrollback stays in limit. -/
theorem resizeShrinkStep_facts (s : ScreenBuffer) :
    s.resizeShrinkStep.rows = s.rows ∧ s.resizeShrinkStep.cols = s.cols ∧
    s.resizeShrinkStep.scrollback_limit = s.scrollback_limit ∧
    s.resizeShrinkStep.cursor_row = s.cursor_row ∧
    s.resizeShrinkStep.cursor_col = s.cursor_col ∧
    s.resizeShrinkStep.primary.length = s.primary.length - 1 ∧
    (∀ row ∈ s.resizeShrinkStep.primary, row ∈ s.primary) ∧
    (s.scrollback.length ≤ s.scrollback_limit →
      s.resizeShrinkStep.scrollback.length ≤
        s.resizeShrinkStep.scrollback_limit) := by
  rcases hp : s.primary with _ | ⟨top, rest⟩
  · have hstep : s.resizeShrinkStep = s := by
      unfold ScreenBuffer.resizeShrinkStep
      rw [hp]
    rw [hstep]
    refine ⟨rfl, rfl, rfl, rfl, rfl, by simp [hp], ?_, fun h => h⟩
    intro row h
    rw [hp] at h
    exact h
  · by_cases hl : 0 < s.scrollback_limit
    · have hstep : s.resizeShrinkStep =
          { s with primary := rest,
                   scrollback := pushSB s.scrollback_limit s.scrollback top }
          := by
        unfold ScreenBuffer.resizeShrinkStep
        rw [hp]
        simp [hl]
      rw [hstep]
      refine ⟨rfl, rfl, rfl, rfl, rfl, ?_, ?_, ?_⟩
      · simp
      · intro row hrow
        exact List.mem_cons_of_mem top hrow
      · intro hsb
        exact pushSB_length_le _ _ _ hsb
    · have hstep : s.resizeShrinkStep = { s with primary := rest } := by
        unfold ScreenBuffer.resizeShrinkStep
        rw [hp]
        simp [hl]
      rw [hstep]
      refine ⟨rfl, rfl, rfl, rfl, rfl, ?_, ?_, fun hsb => hsb⟩
      · simp
      · intro row hrow
        exact List.mem_cons_of_mem top hrow

/-- The whole shrink loop of resize, n times. -/
theorem resizeShrink_facts (n : Nat) (s : ScreenBuffer) :
    (s.resizeShrink n).rows = s.rows ∧ (s.resizeShrink n).cols = s.cols ∧
    (s.resizeShrink n).scrollback_limit = s.scrollback_limit ∧
    (s.resizeShrink n).cursor_row = s.cursor_row ∧
    (s.resizeShrink n).cursor_col = s.cursor_col ∧
    (s.resizeShrink n).primary.length = s.primary.length - n ∧
    (∀ row ∈ (s.resizeShrink n).primary, row ∈ s.primary) ∧
    (s.scrollback.length ≤ s.scrollback_limit →
      (s.resizeShrink n).scrollback.length ≤
        (s.resizeShrink n).scrollback_limit) := by
  induction n generalizing s with
  | zero =>
      exact ⟨rfl, rfl, rfl, rfl, rfl, by simp [ScreenBuffer.resizeShrink],
        fun row h => h, fun h => h⟩
  | succ n ih =>
      obtain ⟨a1, b1, c1, d1, e1, f1, g1, s1⟩ := resizeShrinkStep_facts s
      obtain ⟨a2, b2, c2, d2, e2, f2, g2, s2⟩ := ih s.resizeShrinkStep
      refine ⟨a2.trans a1, b2.trans b1, c2.trans c1, d2.trans d1,
        e2.trans e1, ?_, ?_, ?_⟩
      · show (s.resizeShrinkStep.resizeShrink n).primary.length =
          s.primary.length - (n + 1)
        rw [f2, f1]
        omega
      · intro row hrow
        exact g1 row (g2 row hrow)
      · intro hsb
        exact s2 (s1 hsb)

/-- Row-count stage of resize: afterwards the grid has exactly the target
number of rows, every row is an old row or blank at the old width, and
limit, cols and scrollback bound are kept. -/
theorem resize_stage1 (s : ScreenBuffer) (rows : Nat) (s1 : ScreenBuffer)
    (h : s1 = (if rows < s.rows then s.resizeShrink (s.rows - rows)
       else if s.rows < rows then
         { s with primary :=
             s.primary ++ List.replicate (rows - s.rows) (blankRow s.cols) }
       else s)) :
    s1.cols = s.cols ∧ s1.scrollback_limit = s.scrollback_limit ∧
    (GridShape s → s1.primary.length = rows ∧
      ∀ row ∈ s1.primary, row.length = s.cols) ∧
    (s.scrollback.length ≤ s.scrollback_limit →
      s1.scrollback.length ≤ s1.scrollback_limit) := by
  subst h
  by_cases hlt : rows < s.rows
  · simp only [if_pos hlt]
    obtain ⟨a, b, c, d, e, f, g, sb⟩ :=
      resizeShrink_facts (s.rows - rows) s
    refine ⟨b, c, fun hs => ⟨?_, ?_⟩, sb⟩
    · rw [f, hs.1]
      omega
    · intro row hrow
      exact hs.2 row (g row hrow)
  · rw [if_neg hlt]
    by_cases hgt : s.rows < rows
    · simp only [if_pos hgt]
      refine ⟨trivial, trivial, fun hs => ⟨?_, ?_⟩, fun hb => hb⟩
      · simp only [List.length_append, List.length_replicate, hs.1]
        omega
      · intro row hrow
        rcases List.mem_append.mp hrow with hin | hbl
        · exact hs.2 row hin
        · rw [List.eq_of_mem_replicate hbl]
          simp [blankRow]
    · rw [if_neg hgt]
      exact ⟨rfl, rfl, fun hs => ⟨by rw [hs.1]; omega, hs.2⟩,
        fun hb => hb⟩

/-- Column stage of resize: afterwards every row has exactly the target
width, and everything else is kept. -/
theorem resize_stage2 (s1 : ScreenBuffer) (cols : Nat) (s2 : ScreenBuffer)
    (h : s2 = (if cols ≠ s1.cols then
       { s1 with primary := s1.primary.map (fun row =>
           if s1.cols < cols then
             row ++ List.replicate (cols - s1.cols) Cell.blank
           else row.take cols) }
     else s1)) :
    s2.rows = s1.rows ∧ s2.scrollback_limit = s1.scrollback_limit ∧
    s2.scrollback = s1.scrollback ∧
    s2.primary.length = s1.primary.length ∧
    ((∀ row ∈ s1.primary, row.length = s1.cols) →
      ∀ row ∈ s2.primary, row.length = cols) := by
  subst h
  by_cases hne : cols ≠ s1.cols
  · simp only [if_pos hne]
    refine ⟨trivial, trivial, trivial, by simp, ?_⟩
    intro hws row hrow
    simp only [List.mem_map] at hrow
    obtain ⟨row0, hin, hmap⟩ := hrow
    subst hmap
    by_cases hwide : s1.cols < cols
    · simp only [if_pos hwide, List.length_append, List.length_replicate,
        hws row0 hin]
      omega
    · simp only [if_neg hwide, List.length_take, hws row0 hin]
      omega
  · rw [if_neg hne]
    push_neg at hne
    refine ⟨rfl, rfl, rfl, rfl, ?_⟩
    intro hws row hrow
    rw [hws row hrow, ← hne]

/-- Combined facts about resize: the new dimensions are stored, the grid is
reshaped to exactly rows x cols, the limit is kept, the scrollback bound is
kept, and the cursor is clamped into the new bounds. -/
theorem resize_spec (s : ScreenBuffer) (rows cols : Nat) :
    (s.resize rows cols).rows = rows ∧
    (s.resize rows cols).cols = cols ∧
    (s.resize rows cols).scrollback_limit = s.scrollback_limit ∧
    (GridShape s → GridShape (s.resize rows cols)) ∧
    (s.scrollback.length ≤ s.scrollback_limit →
      (s.resize rows cols).scrollback.length ≤
        (s.resize rows cols).scrollback_limit) ∧
    (0 < rows → (s.resize rows cols).cursor_row < rows) ∧
    (0 < cols → (s.resize rows cols).cursor_col < cols) := by
  set s1 := (if rows < s.rows then s.resizeShrink (s.rows - rows)
       else if s.rows < rows then
         { s with primary :=
             s.primary ++ List.replicate (rows - s.rows) (blankRow s.cols) }
       else s) with hs1
  set s2 := (if cols ≠ s1.cols then
       { s1 with primary := s1.primary.map (fun row =>
           if s1.cols < cols then
             row ++ List.replicate (cols - s1.cols) Cell.blank
           else row.take cols) }
     else s1) with hs2
  have key : s.resize rows cols =
      { s2 with rows := rows, cols := cols,
                cursor_row := clampIdx (s2.cursor_row : Int) rows,
                cursor_col := clampIdx (s2.cursor_col : Int) cols } := rfl
  obtain ⟨hc1, hl1, hsh1, hsb1⟩ := resize_stage1 s rows s1 hs1
  obtain ⟨hr2, hl2, hk2, hln2, hsh2⟩ := resize_stage2 s1 cols s2 hs2
  rw [key]
  refine ⟨rfl, rfl, ?_, ?_, ?_, ?_, ?_⟩
  · exact hl2.trans hl1
  · intro hs
    refine ⟨?_, ?_⟩
    · exact hln2.trans (hsh1 hs).1
    · exact hsh2 (fun row hrow => by rw [hc1]; exact (hsh1 hs).2 row hrow)
  · intro hb
    show s2.scrollback.length ≤ s2.scrollback_limit
    rw [hk2, hl2]
    exact hsb1 hb
  · intro h0
    exact clampIdx_lt _ _ h0
  · intro h0
    exact clampIdx_lt _ _ h0

/-- erase_in_display keeps the frame facts and the saved slot, and keeps
the cursor inside positive bounds. -/
theorem erase_in_display_spec (s s' : ScreenBuffer) (mode : Nat)
    (h : s.erase_in_display mode = some s') :
    Frame s s' ∧ s'.saved_cursor = s.saved_cursor ∧
      (0 < s.rows → 0 < s.cols → s.cursor_row < s.rows →
        s.cursor_col ≤ s.cols →
        s'.cursor_row < s.rows ∧ s'.cursor_col ≤ s.cols) := by
  unfold ScreenBuffer.erase_in_display at h
  by_cases m2 : mode = 2
  · rw [if_pos m2] at h
    simp only [Option.some_inj] at h
    subst h
    refine ⟨⟨rfl, rfl, rfl, fun _ => ⟨?_, ?_⟩, fun hb => hb⟩, rfl,
      fun hr0 hc0 _ _ => ⟨?_, ?_⟩⟩
    · simp
    · intro row hrow
      rw [List.eq_of_mem_replicate hrow]
      simp [blankRow]
    · exact clampIdx_lt _ _ hr0
    · exact le_of_lt (clampIdx_lt _ _ hc0)
  · rw [if_neg m2] at h
    by_cases m0 : mode = 0
    · rw [if_pos m0] at h
      simp only [Option.bind_eq_some, Option.some_inj] at h
      obtain ⟨row, hget, row2, hbr, g, hsr, g2, hfold, hfin⟩ := h
      subst hfin
      obtain ⟨hlg, hmg⟩ := setRow?_spec _ _ _ _ hsr
      obtain ⟨hlg2, hmg2⟩ := foldlM_setRow_spec _ _ _ _ hfold
      refine ⟨⟨rfl, rfl, rfl, fun hs => ⟨?_, ?_⟩, fun hb => hb⟩, rfl,
        fun _ _ hr hc => ⟨hr, hc⟩⟩
      · show g2.length = s.rows
        rw [hlg2, hlg]
        exact hs.1
      · intro x hx
        show x.length = s.cols
        rcases hmg2 x hx with hxg | hxb
        · rcases hmg x hxg with hxp | hxr
          · exact hs.2 x hxp
          · subst hxr
            rw [blankRange?_length _ _ _ _ hbr]
            exact hs.2 row (List.get?_mem hget)
        · subst hxb
          simp [blankRow]
    · rw [if_neg m0] at h
      by_cases m1 : mode = 1
      · rw [if_pos m1] at h
        simp only [Option.bind_eq_some, Option.some_inj] at h
        obtain ⟨g, hfold, row, hget, row2, hbr, g2, hsr, hfin⟩ := h
        subst hfin
        obtain ⟨hlg, hmg⟩ := foldlM_setRow_spec _ _ _ _ hfold
        obtain ⟨hlg2, hmg2⟩ := setRow?_spec _ _ _ _ hsr
        refine ⟨⟨rfl, rfl, rfl, fun hs => ⟨?_, ?_⟩, fun hb => hb⟩, rfl,
          fun _ _ hr hc => ⟨hr, hc⟩⟩
        · show g2.length = s.rows
          rw [hlg2, hlg]
          exact hs.1
        · intro x hx
          show x.length = s.cols
          rcases hmg2 x hx with hxg | hxr
          · rcases hmg x hxg with hxp | hxb
            · exact hs.2 x hxp
            · subst hxb
              simp [blankRow]
          · subst hxr
            rw [blankRange?_length _ _ _ _ hbr]
            rcases hmg row (List.get?_mem hget) with hrp | hrb
            · exact hs.2 row hrp
            · subst hrb
              simp [blankRow]
      · rw [if_neg m1] at h
        simp only [Option.some_inj] at h
        subst h
        exact ⟨frame_refl s, rfl, fun _ _ hr hc => ⟨hr, hc⟩⟩

/-- erase_in_line keeps the frame facts, the saved slot and the cursor. -/
theorem erase_in_line_spec (s s' : ScreenBuffer) (mode : Nat)
    (h : s.erase_in_line mode = some s') :
    Frame s s' ∧ s'.saved_cursor = s.saved_cursor ∧
      s'.cursor_row = s.cursor_row ∧ s'.cursor_col = s.cursor_col := by
  unfold ScreenBuffer.erase_in_line at h
  simp only [Option.bind_eq_some, Option.some_inj] at h
  obtain ⟨row, hget, row2, hbr, g, hsr, hfin⟩ := h
  subst hfin
  obtain ⟨hlg, hmg⟩ := setRow?_spec _ _ _ _ hsr
  have hrow2 : row2.length = row.length := by
    split at hbr
    · exact blankRange?_length _ _ _ _ hbr
    · split at hbr
      · exact blankRange?_length _ _ _ _ hbr
      · split at hbr
        · exact blankRange?_length _ _ _ _ hbr
        · simp only [Option.some_inj] at hbr
          subst hbr
          rfl
  refine ⟨⟨rfl, rfl, rfl, fun hs => ⟨?_, ?_⟩, fun hb => hb⟩, rfl, rfl, rfl⟩
  · show g.length = s.rows
    rw [hlg]
    exact hs.1
  · intro x hx
    show x.length = s.cols
    rcases hmg x hx with hxp | hxr
    · exact hs.2 x hxp
    · subst hxr
      rw [hrow2]
      exact hs.2 row (List.get?_mem hget)

/-- C10: every Screen Model operation preserves the grid-shape invariant:
whenever an operation completes, the primary grid again holds exactly rows
rows of exactly cols cells, for the buffer's (possibly updated)
dimensions. -/
theorem c10_every_op_preserves_grid_shape (op : Op) (s s' : ScreenBuffer)
    (hs : GridShape s) (h : applyOp op s = some s') : GridShape s' := by
  cases op with
  | put cell => exact (put_char_spec s s' cell h).1.1.2.2.2.1 hs
  | lineFeed => exact (newline_spec s s' h).1.2.2.2.1 hs
  | scrollUp n => exact (scroll_up_spec n s s' h).1.2.2.2.1 hs
  | eraseInDisplay m => exact (erase_in_display_spec s s' m h).1.2.2.2.1 hs
  | eraseInLine m => exact (erase_in_line_spec s s' m h).1.2.2.2.1 hs
  | moveCursor r c =>
      simp only [applyOp, Option.some_inj] at h
      subst h
      exact hs
  | saveCursor =>
      simp only [applyOp, Option.some_inj] at h
      subst h
      exact hs
  | restoreCursor =>
      simp only [applyOp, Option.some_inj] at h
      subst h
      exact hs
  | reset =>
      simp only [applyOp, Option.some_inj] at h
      subst h
      constructor
      · simp [ScreenBuffer.reset]
      · intro row hrow
        simp only [ScreenBuffer.reset] at hrow
        rw [List.eq_of_mem_replicate hrow]
        simp [blankRow, ScreenBuffer.reset]
  | resize r c =>
      simp only [applyOp, Option.some_inj] at h
      subst h
      exact (resize_spec s r c).2.2.2.1 hs

/-- Witness for c10_every_op_preserves_grid_shape: a line feed on a fresh
2-by-2 buffer. -/
theorem c10_grid_shape_witness :
    applyOp Op.lineFeed (ScreenBuffer.init 2 2 5) =
      some { ScreenBuffer.init 2 2 5 with cursor_row := 1, cursor_col := 0 } ∧
    GridShape
      { ScreenBuffer.init 2 2 5 with cursor_row := 1, cursor_col := 0 } :=
  ⟨by decide,
   c10_every_op_preserves_grid_shape Op.lineFeed (ScreenBuffer.init 2 2 5)
     { ScreenBuffer.init 2 2 5 with cursor_row := 1, cursor_col := 0 }
     (by decide) (by decide)⟩

/-- C3 (amended): structural validity, including the cursor-bounds
invariant 0 <= cursor_row < rows and 0 <= cursor_col <= cols, is preserved
by every Screen Model operation provided restore_cursor is applied with an
in-bounds saved slot and resize is applied with positive dimensions; the
unrestricted claim fails because resize never re-clamps the saved slot
(see the counterexample). -/
theorem c3_amended_cursor_bounds (op : Op) (s s' : ScreenBuffer)
    (hv : Valid s) (hop : OpOK op s) (h : applyOp op s = some s') :
    Valid s' := by
  obtain ⟨hr0, hc0, hsh, hcr, hcc, hsb⟩ := hv
  cases op with
  | put cell =>
      obtain ⟨⟨⟨fr, fc, fl, fs, fb⟩, _⟩, hcur⟩ := put_char_spec s s' cell h
      obtain ⟨a, b⟩ := hcur hr0 hcr hcc
      exact ⟨by rw [fr]; exact hr0, by rw [fc]; exact hc0, fs hsh, a, b,
        fb hsb⟩
  | lineFeed =>
      obtain ⟨⟨fr, fc, fl, fs, fb⟩, hc1, hr1, _⟩ := newline_spec s s' h
      refine ⟨by rw [fr]; exact hr0, by rw [fc]; exact hc0, fs hsh, ?_, ?_,
        fb hsb⟩
      · rw [hr1, fr]
        omega
      · rw [hc1]
        exact Nat.zero_le _
  | scrollUp n =>
      obtain ⟨⟨fr, fc, fl, fs, fb⟩, hr1, hc1, _⟩ := scroll_up_spec n s s' h
      refine ⟨by rw [fr]; exact hr0, by rw [fc]; exact hc0, fs hsh, ?_, ?_,
        fb hsb⟩
      · rw [hr1, fr]
        exact hcr
      · rw [hc1, fc]
        exact hcc
  | eraseInDisplay m =>
      obtain ⟨⟨fr, fc, fl, fs, fb⟩, _, hcur⟩ := erase_in_display_spec s s' m h
      obtain ⟨a, b⟩ := hcur hr0 hc0 hcr hcc
      exact ⟨by rw [fr]; exact hr0, by rw [fc]; exact hc0, fs hsh,
        by rw [fr]; exact a, by rw [fc]; exact b, fb hsb⟩
  | eraseInLine m =>
      obtain ⟨⟨fr, fc, fl, fs, fb⟩, _, hr1, hc1⟩ := erase_in_line_spec s s' m h
      exact ⟨by rw [fr]; exact hr0, by rw [fc]; exact hc0, fs hsh,
        by rw [hr1, fr]; exact hcr, by rw [hc1, fc]; exact hcc, fb hsb⟩
  | moveCursor r c =>
      simp only [applyOp, Option.some_inj] at h
      subst h
      exact ⟨hr0, hc0, hsh, clampIdx_lt _ _ hr0,
        le_of_lt (clampIdx_lt _ _ hc0), hsb⟩
  | saveCursor =>
      simp only [applyOp, Option.some_inj] at h
      subst h
      exact ⟨hr0, hc0, hsh, hcr, hcc, hsb⟩
  | restoreCursor =>
      simp only [applyOp, Option.some_inj] at h
      subst h
      exact ⟨hr0, hc0, hsh, hop.1, hop.2, hsb⟩
  | reset =>
      simp only [applyOp, Option.some_inj] at h
      subst h
      refine ⟨hr0, hc0, ?_, hr0, Nat.zero_le _, Nat.zero_le _⟩
      constructor
      · simp [ScreenBuffer.reset]
      · intro row hrow
        simp only [ScreenBuffer.reset] at hrow
        rw [List.eq_of_mem_replicate hrow]
        simp [blankRow, ScreenBuffer.reset]
  | resize r c =>
      simp only [applyOp, Option.some_inj] at h
      subst h
      obtain ⟨e1, e2, e3, e4, e5, e6, e7⟩ := resize_spec s r c
      refine ⟨?_, ?_, e4 hsh, ?_, ?_, e5 hsb⟩
      · rw [e1]
        exact hop.1
      · rw [e2]
        exact hop.2
      · rw [e1]
        exact e6 hop.1
      · rw [e2]
        exact le_of_lt (e7 hop.2)

/-- Witness for c3_amended_cursor_bounds: restore_cursor on a fresh
3-by-3 buffer whose saved slot is in bounds. -/
theorem c3_amended_witness :
    Valid (ScreenBuffer.init 3 3 5) ∧ SavedOK (ScreenBuffer.init 3 3 5) ∧
    applyOp Op.restoreCursor (ScreenBuffer.init 3 3 5) =
      some ((ScreenBuffer.init 3 3 5).restore_cursor) ∧
    Valid ((ScreenBuffer.init 3 3 5).restore_cursor) :=
  ⟨by decide, by decide, rfl,
   c3_amended_cursor_bounds Op.restoreCursor (ScreenBuffer.init 3 3 5)
     ((ScreenBuffer.init 3 3 5).restore_cursor) (by decide)
     (by decide : SavedOK (ScreenBuffer.init 3 3 5)) rfl⟩

/-- A store into a well-shaped grid at in-bounds coordinates succeeds, and
reading the coordinates back yields the stored cell. -/
theorem setCell?_read (g : List (List Cell)) (r c : Nat) (cell : Cell)
    (w : Nat) (hr : r < g.length) (hrows : ∀ row ∈ g, row.length = w)
    (hcw : c < w) :
    ∃ g', setCell? g r c cell = some g' ∧
      (g'.get? r).bind (fun row => row.get? c) = some cell := by
  have hget : g.get? r = some (g.get ⟨r, hr⟩) := List.get?_eq_get hr
  have hlen : (g.get ⟨r, hr⟩).length = w := hrows _ (List.get_mem g r hr)
  have hc' : c < (g.get ⟨r, hr⟩).length := by rw [hlen]; exact hcw
  refine ⟨g.set r ((g.get ⟨r, hr⟩).set c cell), ?_, ?_⟩
  · unfold setCell?
    rw [hget]
    show (if c < (g.get ⟨r, hr⟩).length then
        some (g.set r ((g.get ⟨r, hr⟩).set c cell)) else none) = _
    rw [if_pos hc']
  · rw [List.get?_eq_getElem?, List.getElem?_set_eq_of_lt _ hr]
    simp only [Option.bind_eq_bind, Option.some_bind]
    rw [List.get?_eq_getElem?, List.getElem?_set_eq_of_lt _ hc']

/-- One scroll step succeeds whenever the grid is non-empty. -/
theorem scrollUpStep_some (s : ScreenBuffer) (hne : s.primary ≠ []) :
    ∃ t, s.scrollUpStep = some t := by
  unfold ScreenBuffer.scrollUpStep
  rcases hp : s.primary with _ | ⟨top, rest⟩
  · exact absurd hp hne
  · simp only [hp]
    exact ⟨_, rfl⟩

/-- scroll_up 1 succeeds whenever the grid is non-empty. -/
theorem scroll_up_one_some (s : ScreenBuffer) (hne : s.primary ≠ []) :
    ∃ t, s.scroll_up 1 = some t := by
  obtain ⟨t, ht⟩ := scrollUpStep_some s hne
  refine ⟨t, ?_⟩
  simp only [ScreenBuffer.scroll_up, Option.bind_eq_bind, ht,
    Option.some_bind]

/-- newline succeeds on a well-shaped buffer with at least one row. -/
theorem newline_some (s : ScreenBuffer) (hsh : GridShape s)
    (h0 : 0 < s.rows) : ∃ s1, s.newline = some s1 := by
  unfold ScreenBuffer.newline
  by_cases hc : s.rows ≤ s.cursor_row + 1
  · rw [if_pos hc]
    have hne : ({ s with cursor_col := 0, cursor_row := s.cursor_row + 1 } :
        ScreenBuffer).primary ≠ [] := by
      show s.primary ≠ []
      intro hnil
      rw [← List.length_eq_zero, hsh.1] at hnil
      omega
    obtain ⟨t, ht⟩ := scroll_up_one_some _ hne
    refine ⟨{ t with cursor_row := t.rows - 1 }, ?_⟩
    simp only [Option.bind_eq_bind, ht, Option.some_bind, pure]
  · rw [if_neg hc]
    exact ⟨_, rfl⟩

/-- C7: writing a printable (non-control) character either advances the
column by exactly one and stores the cell at the old cursor position (when
cursor_col < cols), or, in the deferred-wrap state cursor_col = cols,
first performs a line feed (the row becomes min(cursor_row + 1, rows - 1),
the column 0), then stores the cell at column 0 of the new row and leaves
the cursor at column 1. -/
theorem c7_deferred_wrap (s : ScreenBuffer) (cell : Cell) (hv : Valid s)
    (h1 : cell.ch ≠ '\n') (h2 : cell.ch ≠ '\r') (h3 : cell.ch ≠ '\x08')
    (h4 : cell.ch ≠ '\t') :
    ∃ s', s.put_char cell = some s' ∧
      (s.cursor_col < s.cols →
        s'.cursor_col = s.cursor_col + 1 ∧ s'.cursor_row = s.cursor_row ∧
        readCell s' s.cursor_row s.cursor_col = some cell) ∧
      (s.cursor_col = s.cols →
        s'.cursor_col = 1 ∧
        s'.cursor_row = min (s.cursor_row + 1) (s.rows - 1) ∧
        readCell s' s'.cursor_row 0 = some cell) := by
  obtain ⟨hr0, hc0, hsh, hcr, hcc, hsb⟩ := hv
  have hput : s.put_char cell = s._write_char cell := by
    unfold ScreenBuffer.put_char
    rw [if_neg h1, if_neg h2, if_neg h3, if_neg h4]
  by_cases hcol : s.cursor_col < s.cols
  · obtain ⟨g', hset, hread⟩ := setCell?_read s.primary s.cursor_row
      s.cursor_col cell s.cols (by rw [hsh.1]; exact hcr) hsh.2 hcol
    refine ⟨{ s with primary := g', cursor_col := s.cursor_col + 1 },
      ?_, fun _ => ⟨rfl, rfl, ?_⟩, fun heq => absurd heq (by omega)⟩
    · rw [hput]
      unfold ScreenBuffer._write_char
      rw [if_neg (not_le.mpr hcol)]
      show (if s.cursor_row < s.rows ∧ s.cursor_col < s.cols then
          match setCell? s.primary s.cursor_row s.cursor_col cell with
          | none => none
          | some g =>
              some { s with primary := g, cursor_col := s.cursor_col + 1 }
        else some s) = _
      rw [if_pos ⟨hcr, hcol⟩, hset]
    · exact hread
  · have hcol' : s.cursor_col = s.cols := by omega
    obtain ⟨s1, hnl⟩ := newline_some s hsh hr0
    obtain ⟨⟨fr, fc, fl, fs, fb⟩, hc1, hr1, _⟩ := newline_spec s s1 hnl
    have hs1r : s1.cursor_row < s1.rows := by
      rw [hr1, fr]
      omega
    have hs1c : s1.cursor_col < s1.cols := by
      rw [hc1, fc]
      exact hc0
    obtain ⟨hlen1, hws1⟩ := fs hsh
    obtain ⟨g', hset, hread⟩ := setCell?_read s1.primary s1.cursor_row
      s1.cursor_col cell s1.cols (by rw [hlen1]; exact hs1r) hws1 hs1c
    refine ⟨{ s1 with primary := g', cursor_col := s1.cursor_col + 1 },
      ?_, fun hlt => absurd hlt hcol, fun _ => ⟨?_, ?_, ?_⟩⟩
    · rw [hput]
      unfold ScreenBuffer._write_char
      rw [if_pos (le_of_eq hcol'.symm), hnl]
      show (if s1.cursor_row < s1.rows ∧ s1.cursor_col < s1.cols then
          match setCell? s1.primary s1.cursor_row s1.cursor_col cell with
          | none => none
          | some g =>
              some { s1 with primary := g, cursor_col := s1.cursor_col + 1 }
        else some s1) = _
      rw [if_pos ⟨hs1r, hs1c⟩, hset]
    · show s1.cursor_col + 1 = 1
      rw [hc1]
    · exact hr1
    · show (g'.get? s1.cursor_row).bind (fun row => row.get? 0) = some cell
      rw [← hc1]
      exact hread

/-- Witness for c7_deferred_wrap: the character A written to a fresh
2-by-2 buffer. -/
theorem c7_deferred_wrap_witness :
    ∃ s', (ScreenBuffer.init 2 2 5).put_char
        ⟨'A', none, none, false, false, false, false⟩ = some s' ∧
      ((ScreenBuffer.init 2 2 5).cursor_col < (ScreenBuffer.init 2 2 5).cols →
        s'.cursor_col = (ScreenBuffer.init 2 2 5).cursor_col + 1 ∧
        s'.cursor_row = (ScreenBuffer.init 2 2 5).cursor_row ∧
        readCell s' (ScreenBuffer.init 2 2 5).cursor_row
          (ScreenBuffer.init 2 2 5).cursor_col =
          some ⟨'A', none, none, false, false, false, false⟩) ∧
      ((ScreenBuffer.init 2 2 5).cursor_col = (ScreenBuffer.init 2 2 5).cols →
        s'.cursor_col = 1 ∧
        s'.cursor_row = min ((ScreenBuffer.init 2 2 5).cursor_row + 1)
          ((ScreenBuffer.init 2 2 5).rows - 1) ∧
        readCell s' s'.cursor_row 0 =
          some ⟨'A', none, none, false, false, false, false⟩) :=
  c7_deferred_wrap (ScreenBuffer.init 2 2 5)
    ⟨'A', none, none, false, false, false, false⟩ (by decide) (by decide)
    (by decide) (by decide) (by decide)

/-- A list already within the capacity is kept whole by lastN. -/
theorem lastN_of_le {α : Type} (k : Nat) (xs : List α)
    (h : xs.length ≤ k) : lastN k xs = xs := by
  unfold lastN
  rw [Nat.sub_eq_zero_of_le h, List.drop_zero]

/-- Trimming to the last k elements before appending more and trimming
again is the same as trimming once at the end. -/
theorem lastN_append_eq {α : Type} (k : Nat) (xs ys : List α) :
    lastN k (lastN k xs ++ ys) = lastN k (xs ++ ys) := by
  rcases le_or_lt xs.length k with hx | hx
  · rw [lastN_of_le k xs hx]
  · unfold lastN
    have hlx : (xs.drop (xs.length - k)).length = k := by
      rw [List.length_drop]
      omega
    rw [List.drop_append_eq_append_drop, List.drop_append_eq_append_drop,
      List.drop_drop, List.length_append, List.length_append, hlx]
    congr 1
    · congr 1
      omega
    · congr 1
      omega

/-- The deque push with trim equals appending then keeping the last
`limit` entries, as long as the deque was within its limit. -/
theorem pushSB_eq_lastN (limit : Nat) (sb : List (List Cell))
    (row : List Cell) (h : sb.length ≤ limit) :
    pushSB limit sb row = lastN limit (sb ++ [row]) := by
  unfold pushSB lastN
  simp only [List.length_append, List.length_cons, List.length_nil]
  by_cases hc : limit < sb.length + 1
  · rw [if_pos (by simpa using hc)]
    have he : sb.length + 1 - limit = 1 := by omega
    rw [he, ← List.drop_one]
  · rw [if_neg (by simpa using hc)]
    have he : sb.length + 1 - limit = 0 := by omega
    rw [he, List.drop_zero]

/-- The exact effect of scroll_up(n) on a buffer with positive scrollback
capacity: the top n rows (as long as n does not exceed the grid) move to
the end of the scrollback, which keeps only its last `limit` entries, and
n blank rows are appended at the bottom. -/
theorem scroll_up_eq (n : Nat) (s : ScreenBuffer)
    (h1 : n ≤ s.primary.length)
    (h2 : s.scrollback.length ≤ s.scrollback_limit)
    (h3 : 0 < s.scrollback_limit) :
    s.scroll_up n = some { s with
      scrollback :=
        lastN s.scrollback_limit (s.scrollback ++ s.primary.take n),
      primary :=
        s.primary.drop n ++ List.replicate n (blankRow s.cols) } := by
  induction n generalizing s with
  | zero =>
      simp only [ScreenBuffer.scroll_up, List.take_zero, List.drop_zero,
        List.replicate_zero, List.append_nil, Option.some_inj]
      rw [lastN_of_le _ _ h2]
  | succ n ih =>
      rcases hp : s.primary with _ | ⟨top, rest⟩
      · rw [hp] at h1
        simp at h1
      · have hstep : s.scrollUpStep = some { s with
            scrollback := pushSB s.scrollback_limit s.scrollback top,
            primary := rest ++ [blankRow s.cols] } := by
          unfold ScreenBuffer.scrollUpStep
          rw [hp]
          simp only [h3, if_true, reduceIte]
        set s1 : ScreenBuffer := { s with
            scrollback := pushSB s.scrollback_limit s.scrollback top,
            primary := rest ++ [blankRow s.cols] } with hs1
        have hn : n ≤ s1.primary.length := by
          rw [hp] at h1
          simp only [hs1, List.length_append, List.length_cons,
            List.length_singleton] at h1 ⊢
          simp
          omega
        have hb : s1.scrollback.length ≤ s1.scrollback_limit :=
          pushSB_length_le _ _ _ h2
        have := ih s1 hn hb h3
        simp only [ScreenBuffer.scroll_up, Option.bind_eq_bind, hstep,
          Option.some_bind]
        rw [this]
        simp only [Option.some_inj]
        have htake : (rest ++ [blankRow s.cols]).take n = rest.take n := by
          apply List.take_append_of_le_length
          rw [hp] at h1
          simp only [List.length_cons] at h1
          omega
        have hdrop : (rest ++ [blankRow s.cols]).drop n =
            rest.drop n ++ [blankRow s.cols] := by
          apply List.drop_append_of_le_length
          rw [hp] at h1
          simp only [List.length_cons] at h1
          omega
        ext1
        all_goals simp only [hs1]
        · rw [hdrop, List.drop_succ_cons, List.append_assoc,
            List.singleton_append, List.replicate_succ]
        · rw [htake, pushSB_eq_lastN _ _ _ h2, lastN_append_eq,
            List.append_assoc, List.singleton_append, List.take_succ_cons]

/-- C5 (amended): for positive scrollback capacity and n not exceeding the
grid height, the Timeline after scroll_up(n) is the old scrollback followed
by the pre-scroll top n rows — trimmed to the last `capacity` entries,
oldest dropped first — then the remaining original rows, then n blank
rows.  (As stated, the claim omits the surviving pre-scroll scrollback; see
the counterexample.) -/
theorem c5_amended_scroll_timeline (n : Nat) (s : ScreenBuffer)
    (h1 : n ≤ s.primary.length)
    (h2 : s.scrollback.length ≤ s.scrollback_limit)
    (h3 : 0 < s.scrollback_limit) :
    ∃ s', s.scroll_up n = some s' ∧
      timeline s' =
        lastN s.scrollback_limit (s.scrollback ++ s.primary.take n) ++
          (s.primary.drop n ++ List.replicate n (blankRow s.cols)) := by
  refine ⟨_, scroll_up_eq n s h1 h2 h3, ?_⟩
  unfold timeline
  rfl

/-- Witness for c5_amended_scroll_timeline: scroll one row out of a fresh
2-by-1 buffer with capacity 2. -/
theorem c5_amended_witness :
    ∃ s', (ScreenBuffer.init 2 1 2).scroll_up 1 = some s' ∧
      timeline s' =
        lastN (ScreenBuffer.init 2 1 2).scrollback_limit
            ((ScreenBuffer.init 2 1 2).scrollback ++
              (ScreenBuffer.init 2 1 2).primary.take 1) ++
          ((ScreenBuffer.init 2 1 2).primary.drop 1 ++
            List.replicate 1 (blankRow (ScreenBuffer.init 2 1 2).cols)) :=
  c5_amended_scroll_timeline 1 (ScreenBuffer.init 2 1 2) (by decide)
    (by decide) (by decide)

/-- Clamping a strictly in-range value is the identity on both cursor
coordinates, so move_cursor to the current position changes nothing. -/
theorem move_cursor_id (s : ScreenBuffer) (r c : Int)
    (hr : r = (s.cursor_row : Int)) (hc : c = (s.cursor_col : Int))
    (h1 : s.cursor_row < s.rows) (h2 : s.cursor_col < s.cols) :
    s.move_cursor r c = s := by
  subst hr
  subst hc
  unfold ScreenBuffer.move_cursor
  ext1
  all_goals first
    | rfl
    | exact clampIdx_of_lt _ _ h1
    | exact clampIdx_of_lt _ _ h2

/-- Clamping zero into a positive range gives zero. -/
theorem clampIdx_zero (n : Nat) (h : 0 < n) : clampIdx 0 n = 0 := by
  simp only [clampIdx, clamp]
  omega

/-- C4 (amended): an empty CSI parameter string is parsed as the single
parameter 0 (str.split of the empty string yields one empty piece), so the
cursor-motion count is 0, not the claimed default 1: bare A/B/C/D move by
zero and bare S scrolls zero rows (no-ops while the cursor is strictly in
bounds), and bare E/F only reset the column to 0 of the unchanged row. -/
theorem c4_amended_empty_params (p : AnsiParser) (priv : Bool)
    (h1 : p.screen.cursor_row < p.screen.rows)
    (h2 : p.screen.cursor_col < p.screen.cols) :
    p.handle_csi priv [] 'A' = some p ∧
    p.handle_csi priv [] 'B' = some p ∧
    p.handle_csi priv [] 'C' = some p ∧
    p.handle_csi priv [] 'D' = some p ∧
    p.handle_csi priv [] 'E' =
      some { p with screen := { p.screen with cursor_col := 0 } } ∧
    p.handle_csi priv [] 'F' =
      some { p with screen := { p.screen with cursor_col := 0 } } ∧
    p.handle_csi priv [] 'S' = some p := by
  have hc0 : 0 < p.screen.cols := by omega
  have key : ∀ r c : Int, r = (p.screen.cursor_row : Int) →
      c = (p.screen.cursor_col : Int) →
      some { p with screen := p.screen.move_cursor r c } = some p := by
    intro r c hr hc
    rw [move_cursor_id p.screen r c hr hc h1 h2]
  have keyE : ∀ r : Int, r = (p.screen.cursor_row : Int) →
      some { p with screen := p.screen.move_cursor r 0 } =
      some { p with screen := { p.screen with cursor_col := 0 } } := by
    intro r hr
    subst hr
    have hm : p.screen.move_cursor (p.screen.cursor_row : Int) 0 =
        { p.screen with cursor_col := 0 } := by
      unfold ScreenBuffer.move_cursor
      ext1
      all_goals first
        | rfl
        | exact clampIdx_of_lt _ _ h1
        | exact clampIdx_zero _ hc0
    rw [hm]
  have hn : headOr (parseParams []) 1 = 0 := rfl
  refine ⟨?_, ?_, ?_, ?_, ?_, ?_, rfl⟩
  · exact key _ _ (by rw [hn]; push_cast; omega) (by omega)
  · exact key _ _ (by rw [hn]; push_cast; omega) (by omega)
  · exact key _ _ (by omega) (by rw [hn]; push_cast; omega)
  · exact key _ _ (by omega) (by rw [hn]; push_cast; omega)
  · exact keyE _ (by rw [hn]; push_cast; omega)
  · exact keyE _ (by rw [hn]; push_cast; omega)

/-- Witness for c4_amended_empty_params: a fresh 2-by-2 parser. -/
theorem c4_amended_witness :
    (AnsiParser.init (ScreenBuffer.init 2 2 5)).handle_csi false [] 'A' =
      some (AnsiParser.init (ScreenBuffer.init 2 2 5)) ∧
    (AnsiParser.init (ScreenBuffer.init 2 2 5)).handle_csi false [] 'E' =
      some { AnsiParser.init (ScreenBuffer.init 2 2 5) with
        screen := { (ScreenBuffer.init 2 2 5) with cursor_col := 0 } } :=
  ⟨(c4_amended_empty_params (AnsiParser.init (ScreenBuffer.init 2 2 5))
      false (by decide) (by decide)).1,
   (c4_amended_empty_params (AnsiParser.init (ScreenBuffer.init 2 2 5))
      false (by decide) (by decide)).2.2.2.2.1⟩

/-- C6 (amended): for modes 47 and 1049, entering with no alternate buffer
yet creates a fresh zero-scrollback alternate sized to the current grid
with the cursor carried over, makes it active and stores the old screen;
but whenever an alternate buffer already exists, both the set and the
reset form unconditionally swap the active and stored buffers, so a second
set while the alternate is active is not a no-op: it toggles back to the
previously active buffer.  Reset with no alternate buffer is a no-op. -/
theorem c6_amended_alt_toggle (p : AnsiParser) (m : Nat)
    (hm : m = 47 ∨ m = 1049) :
    (p.alt_screen = none →
      privateModeStep true p m =
        { p with screen := mkAlt p.screen, alt_screen := some p.screen } ∧
      (mkAlt p.screen).scrollback_limit = 0 ∧
      (mkAlt p.screen).rows = p.screen.rows ∧
      (mkAlt p.screen).cols = p.screen.cols ∧
      (mkAlt p.screen).cursor_row = p.screen.cursor_row ∧
      (mkAlt p.screen).cursor_col = p.screen.cursor_col ∧
      (mkAlt p.screen).scrollback = [] ∧
      privateModeStep false p m = p) ∧
    (∀ a, p.alt_screen = some a →
      privateModeStep true p m =
        { p with screen := a, alt_screen := some p.screen } ∧
      privateModeStep false p m =
        { p with screen := a, alt_screen := some p.screen }) := by
  constructor
  · intro h0
    refine ⟨?_, rfl, rfl, rfl, rfl, rfl, rfl, ?_⟩
    · unfold privateModeStep
      rw [if_pos hm]
      simp [h0]
    · unfold privateModeStep
      rw [if_pos hm]
      simp [h0]
  · intro a ha
    constructor
    · unfold privateModeStep
      rw [if_pos hm]
      simp [ha]
    · unfold privateModeStep
      rw [if_pos hm]
      simp [ha]

/-- Witness for c6_amended_alt_toggle: mode 47 on a fresh 2-by-2 parser
with no alternate buffer. -/
theorem c6_amended_witness :
    privateModeStep true (AnsiParser.init (ScreenBuffer.init 2 2 5)) 47 =
      { AnsiParser.init (ScreenBuffer.init 2 2 5) with
          screen := mkAlt (ScreenBuffer.init 2 2 5),
          alt_screen := some (ScreenBuffer.init 2 2 5) } ∧
    (mkAlt (ScreenBuffer.init 2 2 5)).scrollback_limit = 0 :=
  ⟨((c6_amended_alt_toggle (AnsiParser.init (ScreenBuffer.init 2 2 5)) 47
      (Or.inl rfl)).1 rfl).1,
   ((c6_amended_alt_toggle (AnsiParser.init (ScreenBuffer.init 2 2 5)) 47
      (Or.inl rfl)).1 rfl).2.1⟩
